import Mathlib

/-!
Verification of the season-partitioned statistics engine of the card-game
tracker: a shallow embedding of `games/models.py`, `games/achievements.py`
and `web/views.py`, with theorems about the statistics aggregator, the
season partition, the deck model, the per-game statistics and the
achievement predicates.

Conventions of the embedding:
* Django model rows become Lean structures; machine floats for durations in
  seconds become `ℚ` (exact arithmetic); `datetime` timestamps inside game
  records become `ℚ` (seconds on an arbitrary linear timeline); nullable
  columns become `Option`.
* Python code that can raise (`gameplayer_set.get` with no match) is
  embedded in `Option`/`Except`, `none`/`error` standing for the exception.
* A queryset is embedded as the list of its rows in iteration order.
-/

/-! ## Data model (games/models.py) -/

abbrev UserId := Nat

/-- A `Chug` row: `duration_in_milliseconds`, plus its primary key so that
the `fastest_chug` foreign key can be compared by identity. -/
structure ChugRec where
  id : Nat
  duration_ms : Nat
deriving DecidableEq, Repr

/-- A `Card` row of one game: `value` (2..14), `suit`, optional
`drawn_datetime`, optional attached `chug`.  The card's `index` is its
position in the containing list (cards are stored in index order, per
`Card.Meta.ordering` (by index) and `Game.ordered_cards`). -/
structure CardRec where
  value : Nat
  suit : Char
  drawn_dt : Option ℚ
  chug : Option ChugRec
deriving DecidableEq, Repr

/-- A `GamePlayer` row: user, seat `position`, per-player `dnf` flag. -/
structure GamePlayerRec where
  user : UserId
  position : Nat
  dnf : Bool
deriving DecidableEq, Repr

/-- A `Game` row together with its related rows.  `gameplayers` is the
`gameplayer_set` in its iteration order (`GamePlayer.Meta.ordering` is by
`position`); `cards` is `ordered_cards()`, i.e. in draw-index order. -/
structure GameRec where
  id : Nat
  official : Bool
  dnf : Bool
  start_dt : Option ℚ
  end_dt : Option ℚ
  sips_per_beer : Nat
  gameplayers : List GamePlayerRec
  cards : List CardRec
deriving DecidableEq, Repr

def GameRec.ordered_cards (g : GameRec) : List CardRec := g.cards

def GameRec.players_count (g : GameRec) : Nat := g.gameplayers.length

/-- Embeds `game.gameplayer_set.get(user=u)`: the row for user `u`, `none` when the
lookup raises `GamePlayer.DoesNotExist`. -/
def GameRec.findGP (g : GameRec) (u : UserId) : Option GamePlayerRec :=
  g.gameplayers.find? (fun gp => gp.user == u)

/-- Embeds `Game.is_completed`. -/
def GameRec.is_completed (g : GameRec) : Bool := g.end_dt.isSome

/-- Embeds `Game.get_last_activity_time`: end time if set, else last card's drawn
time, else start time. -/
def GameRec.get_last_activity_time (g : GameRec) : Option ℚ :=
  match g.end_dt with
  | some e => some e
  | none =>
    match g.ordered_cards.getLast? with
    | some c => c.drawn_dt
    | none => g.start_dt

/-- Embeds `Game.get_duration`.  In the `dnf` branch the source subtracts
`start_datetime` from `get_last_activity_time()`; when either is missing
Python would raise, embedded here as `none` (unreachable from the
aggregator, which returns before calling this on a DNF game). -/
def GameRec.get_duration (g : GameRec) : Option ℚ :=
  if g.dnf then
    match g.get_last_activity_time, g.start_dt with
    | some l, some s => some (l - s)
    | _, _ => none
  else
    match g.start_dt, g.end_dt with
    | some s, some e => some (e - s)
    | _, _ => none

/-- Embeds `Chug.duration.total_seconds()`: milliseconds to seconds. -/
def chugSecs (ms : Nat) : ℚ := (ms : ℚ) / 1000

/-- A `PlayerStat` row (aggregate record).  `best_game`/`worst_game` and
`fastest_chug` are foreign keys, kept as the game id / the chug row. -/
structure PlayerStat where
  user : UserId
  season_number : Nat
  total_games : Nat
  total_time_played_seconds : ℚ
  total_sips : Nat
  best_game : Option Nat
  worst_game : Option Nat
  best_game_sips : Option Nat
  worst_game_sips : Option Nat
  total_chugs : Nat
  fastest_chug : Option ChugRec
  average_chug_time_seconds : Option ℚ
deriving DecidableEq, Repr

/-! ## The incremental aggregator `PlayerStat.update_from_new_game` -/

/-- Accumulator of the card loop in `update_from_new_game`: the local
variables `game_sips` and `total_chug_time` together with the fields
`total_chugs` and `fastest_chug` that the loop mutates on `self`. -/
structure CardAcc where
  game_sips : Nat
  total_chugs : Nat
  total_chug_time : ℚ
  fastest_chug : Option ChugRec
deriving DecidableEq, Repr

/-- One iteration of `for i, c in enumerate(game.ordered_cards())` in
`update_from_new_game`: cards with `i % players == player_index` add their
value to `game_sips`; an attached chug bumps `total_chugs`, adds its
seconds to `total_chug_time`, and replaces `fastest_chug` when strictly
faster (or when no fastest chug is recorded yet). -/
def cardStep (n pidx : Nat) (acc : CardAcc) (i : Nat) (c : CardRec) : CardAcc :=
  if i % n = pidx then
    let acc1 := { acc with game_sips := acc.game_sips + c.value }
    match c.chug with
    | none => acc1
    | some ch =>
      { acc1 with
        total_chugs := acc1.total_chugs + 1
        total_chug_time := acc1.total_chug_time + chugSecs ch.duration_ms
        fastest_chug :=
          match acc1.fastest_chug with
          | none => some ch
          | some f => if ch.duration_ms < f.duration_ms then some ch else some f }
  else acc

/-- The whole card loop, `i` being the running `enumerate` index. -/
def cardLoop (n pidx : Nat) (i : Nat) (acc : CardAcc) : List CardRec → CardAcc
  | [] => acc
  | c :: cs => cardLoop n pidx (i + 1) (cardStep n pidx acc i c) cs

/-- The reconstruction `total_chug_time = total_chugs * average_chug_time`
at the top of `update_from_new_game`; the Python truthiness test maps both
`None` and `0.0` averages to `0`. -/
def PlayerStat.reconChugTime (ps : PlayerStat) : ℚ :=
  match ps.average_chug_time_seconds with
  | some a => if a = 0 then 0 else (ps.total_chugs : ℚ) * a
  | none => 0

/-- Embeds `PlayerStat.update_from_new_game(game)`.  `none` embeds the
`GamePlayer.DoesNotExist` exception raised by `gameplayer_set.get` when the
stat's user is not among the game's players.  The `getD 0` in the
best/worst comparisons stands for the source reading
`self.best_game_sips`, which is always set whenever `best_game` is (in the
unreachable inconsistent state Python would raise on `int > None`). -/
def PlayerStat.update_from_new_game (ps : PlayerStat) (g : GameRec) : Option PlayerStat :=
  if g.official = false ∨ g.dnf = true then some ps
  else
    match g.findGP ps.user with
    | none => none
    | some gp =>
      if gp.dnf then some ps
      else
        let pidx := gp.position
        let total_time :=
          match g.get_duration with
          | some d => if d = 0 then ps.total_time_played_seconds
                      else ps.total_time_played_seconds + d
          | none => ps.total_time_played_seconds
        let acc := cardLoop g.players_count pidx 0
          ⟨0, ps.total_chugs, ps.reconChugTime, ps.fastest_chug⟩ g.ordered_cards
        let game_sips := acc.game_sips
        let ps1 : PlayerStat :=
          { ps with
            total_games := ps.total_games + 1
            total_time_played_seconds := total_time
            total_chugs := acc.total_chugs
            fastest_chug := acc.fastest_chug
            total_sips := ps.total_sips + game_sips }
        let ps2 :=
          if ps1.best_game.isNone ∨ game_sips > ps1.best_game_sips.getD 0 then
            { ps1 with best_game := some g.id, best_game_sips := some game_sips }
          else ps1
        let ps3 :=
          if ps2.worst_game.isNone ∨ game_sips < ps2.worst_game_sips.getD 0 then
            { ps2 with worst_game := some g.id, worst_game_sips := some game_sips }
          else ps2
        let ps4 :=
          if ps3.total_chugs > 0 then
            let avg := acc.total_chug_time / (ps3.total_chugs : ℚ)
            { ps3 with average_chug_time_seconds := some avg }
          else ps3
        some ps4

/-! ## Full recalculation `PlayerStat.recalculate` -/

/-- The field-reset loop at the top of `recalculate`: every field with a
declared default gets the default, every remaining nullable field gets
`None`; `user` and `season_number` (no default, not nullable) are kept. -/
def PlayerStat.reset (ps : PlayerStat) : PlayerStat :=
  { ps with
    total_games := 0
    total_time_played_seconds := 0
    total_sips := 0
    best_game := none
    worst_game := none
    best_game_sips := none
    worst_game_sips := none
    total_chugs := 0
    fastest_chug := none
    average_chug_time_seconds := none }

/-- The `Q(end_datetime__gte=season.start, end_datetime__lte=season.end)`
filter of `filter_season` with `should_include_live = False` (the default,
used by `recalculate`): a game passes iff its end time lies in the window;
live games (null end time) never pass. -/
def filter_season_q (lo hi : ℚ) (g : GameRec) : Bool :=
  match g.end_dt with
  | some e => decide (lo ≤ e) && decide (e ≤ hi)
  | none => false

/-- The queryset driving `recalculate`'s replay:
`filter_season` of the gameplayer set keyed on the game, then filtered
to official non-DNF games,
applied to the games of the user's gameplayer rows, keeping the queryset's
iteration order. -/
def recalcQueryset (lo hi : ℚ) (gs : List GameRec) : List GameRec :=
  gs.filter (fun g => filter_season_q lo hi g && g.official && !g.dnf)

/-- Embeds `PlayerStat.recalculate()`: reset all fields, then replay
`update_from_new_game` over the filtered queryset.  `gs` is the list of the
user's games in the queryset's iteration order (by the player's seat
`position`, per `GamePlayer.Meta.ordering`); `lo`/`hi` are the season
window.  `none` embeds an escaped exception. -/
def PlayerStat.recalculate (ps : PlayerStat) (gs : List GameRec) (lo hi : ℚ) :
    Option PlayerStat :=
  (recalcQueryset lo hi gs).foldlM PlayerStat.update_from_new_game ps.reset

/-! ## Persistence points of a recalculation (for the atomicity claim)

`update_from_new_game` ends in `self.save()`, which is skipped by its
early returns; `recalculate` itself never saves.  So the persisted states
during one `recalculate()` call are exactly the post-states of the
qualifying replayed games, in replay order. -/

/-- The game qualifies: `update_from_new_game` runs to completion (and
saves); i.e. official, not game-DNF, and the player has a gameplayer row
with `dnf=False`. -/
def qualifies (u : UserId) (g : GameRec) : Bool :=
  g.official && !g.dnf &&
    (match g.findGP u with
     | some gp => !gp.dnf
     | none => false)

/-- The sequence of states persisted while replaying `gs` from state `s`:
one `save()` per qualifying game; an escaped exception (missing gameplayer
row) aborts the replay. -/
def replaySaves (u : UserId) : PlayerStat → List GameRec → List PlayerStat
  | _, [] => []
  | s, g :: gs =>
    match s.update_from_new_game g with
    | none => []
    | some s' =>
      if qualifies u g then s' :: replaySaves u s' gs else replaySaves u s' gs

/-- The states persisted by one `recalculate()` call, in order. -/
def PlayerStat.recalcSaves (ps : PlayerStat) (gs : List GameRec) (lo hi : ℚ) :
    List PlayerStat :=
  replaySaves ps.user ps.reset (recalcQueryset lo hi gs)

/-! ## Per-game statistics `Game.get_player_stats` -/

/-- The output row of `get_player_stats` for one player. -/
structure PlayerGameStat where
  total_sips : Nat
  sips_per_turn : Option ℚ
  full_beers : Nat
  extra_sips : Nat
  total_time : Option ℚ
  time_per_turn : Option ℚ
  time_per_sip : Option ℚ
deriving DecidableEq, Repr

/-- Embeds `div_or_none(a, b)`: `None` when `a` is `None` or `b` is falsy
(`None` or zero), else `a / b`. -/
def div_or_none (a b : Option ℚ) : Option ℚ :=
  match a, b with
  | none, _ => none
  | _, none => none
  | some x, some y => if y = 0 then none else some (x / y)

/-- Embeds `lst[i] += v` on a Python list embedded as `List`. -/
def listBumpN (l : List Nat) (i : Nat) (v : Nat) : List Nat :=
  l.set i (l.getD i 0 + v)

def listBumpQ (l : List ℚ) (i : Nat) (v : ℚ) : List ℚ :=
  l.set i (l.getD i 0 + v)

/-- The first loop of `get_player_stats`: accumulates `total_sips`,
`total_drawn` and `last_sip` over the enumerated ordered cards;
`i` is the running enumerate index. -/
def sipsLoop (n : Nat) (i : Nat)
    (acc : List Nat × List Nat × Option (Nat × Nat)) :
    List CardRec → List Nat × List Nat × Option (Nat × Nat)
  | [] => acc
  | c :: cs =>
    sipsLoop n (i + 1)
      (listBumpN acc.1 (i % n) c.value,
       listBumpN acc.2.1 (i % n) 1,
       some (i % n, c.value))
      cs

/-- Embeds `Game.get_turn_durations`: deltas between consecutive global draw
timestamps, seeded with `start_datetime`; a card with no drawn time stops
the generator; a missing previous timestamp yields nothing but becomes the
new reference point. -/
def turnDurations (prev : Option ℚ) : List CardRec → List ℚ
  | [] => []
  | c :: cs =>
    match c.drawn_dt with
    | none => []
    | some d =>
      match prev with
      | some p => (d - p) :: turnDurations (some d) cs
      | none => turnDurations (some d) cs

def GameRec.get_turn_durations (g : GameRec) : List ℚ :=
  turnDurations g.start_dt g.ordered_cards

/-- The timing loop of `get_player_stats`: accumulates `total_times` and
`total_done` over the enumerated turn durations. -/
def timesLoop (n : Nat) (i : Nat) (acc : List ℚ × List Nat) :
    List ℚ → List ℚ × List Nat
  | [] => acc
  | d :: ds =>
    timesLoop n (i + 1)
      (listBumpQ acc.1 (i % n) d, listBumpN acc.2 (i % n) 1) ds

/-- Whether the timing branch is taken: the first ordered card exists and
has a drawn time. -/
def GameRec.hasTiming (g : GameRec) : Bool :=
  match g.ordered_cards.head? with
  | some c => c.drawn_dt.isSome
  | none => false

/-- Embeds `Game.get_player_stats`, one output row per seat `0..n-1`. -/
def GameRec.get_player_stats (g : GameRec) : List PlayerGameStat :=
  let n := g.players_count
  let tsd := sipsLoop n 0 (List.replicate n 0, List.replicate n 0, none) g.ordered_cards
  let total_sips := tsd.1
  let total_drawn := tsd.2.1
  let last_sip := tsd.2.2
  let total_times : List (Option ℚ) :=
    if g.hasTiming then
      ((timesLoop n 0 (List.replicate n 0, List.replicate n 0)
          g.get_turn_durations).1).map some
    else List.replicate n none
  let total_done : List (Option Nat) :=
    if g.hasTiming then
      ((timesLoop n 0 (List.replicate n 0, List.replicate n 0)
          g.get_turn_durations).2).map some
    else List.replicate n none
  (List.range n).map (fun i =>
    let sips := total_sips.getD i 0
    let time_per_sip :=
      if g.start_dt.isNone then none
      else if (match last_sip with
               | some ls => ls.1 == i
               | none => false) && !g.is_completed then
        div_or_none (total_times.getD i none)
          (some ((sips : ℚ) - ((last_sip.map (fun ls => ls.2)).getD 0 : Nat)))
      else
        div_or_none (total_times.getD i none) (some (sips : ℚ))
    { total_sips := sips
      sips_per_turn :=
        div_or_none (some (sips : ℚ)) ((total_drawn.getD i 0 : Nat) : ℚ)
      full_beers := sips / g.sips_per_beer
      extra_sips := sips % g.sips_per_beer
      total_time := total_times.getD i none
      time_per_turn :=
        div_or_none (total_times.getD i none)
          ((total_done.getD i none).map (fun k => (k : ℚ)))
      time_per_sip := time_per_sip })

/-! ## Card ownership (`Card.save`, round-robin assignment) -/

/-- The `drawn_by` derivation in `Card.save`:
`game.ordered_players()[index % players.count()]`. -/
def Card.save_drawn_by (g : GameRec) (index : Nat) : Option UserId :=
  (g.gameplayers.map (fun gp => gp.user)).get? (index % g.players_count)

/-- The `drawn_by_2` derivation in `Card.save` reads
`self.ordered_gameplayers()` — but `ordered_gameplayers` is a method of
`Game`, not of `Card` (the source presumably meant
`self.game.ordered_gameplayers()`), so Python raises `AttributeError`
before indexing.  The embedding records the raised exception. -/
def Card.save_drawn_by_2 (_g : GameRec) (_index : Nat) : Except String GamePlayerRec :=
  Except.error ("AttributeError")

/-- The whole derivation branch of `Card.save` when `drawn_by` is not
already set: compute `drawn_by`, then `drawn_by_2`. -/
def Card.save_derive (g : GameRec) (index : Nat) : Except String (UserId × GamePlayerRec) :=
  match Card.save_drawn_by g index with
  | none => Except.error ("IndexError")
  | some u =>
    match Card.save_drawn_by_2 g index with
    | Except.error e => Except.error e
    | Except.ok gp => Except.ok (u, gp)

/-! ## Deck model (`Card.VALUES`, `Card.SUITS`, shuffling) -/

def Card.VALUES : List Nat := [2, 3, 4, 5, 6, 7, 8, 9, 10, 11, 12, 13, 14]

def Card.SUITS : List Char := ['S', 'C', 'H', 'D', 'A', 'I']

/-- Embeds `Card.get_ordered_cards_for_players`: all 13 values in each of the
first `player_count` suits, suits outermost. -/
def Card.get_ordered_cards_for_players (player_count : Nat) : List (Nat × Char) :=
  (Card.SUITS.take player_count).flatMap
    (fun s => Card.VALUES.map (fun v => (v, s)))

/-- A linear congruential step used to drive the modelled shuffle. -/
def lcgNext (s : Nat) : Nat := (s * 1103515245 + 12345) % 2147483648

/-- Modelled from the spec: `src/games/seed.py` (defining
`shuffle_with_seed`) is not part of the repository sources; the spec
requires only a seeded deterministic permutation, reproducible across runs
(same seed and input order giving the same output order).  This embedding
realises it as a selection shuffle driven by a linear congruential
generator: a pure function, hence deterministic, and a permutation of its
input (proved below). -/
def shuffleGo (s : Nat) : List α → List α
  | [] => []
  | x :: xs =>
    let l := x :: xs
    let i := s % l.length
    l.getD i x :: shuffleGo (lcgNext s) (l.eraseIdx i)
termination_by l => l.length
decreasing_by
  simp only [List.length_eraseIdx]
  have hi : s % (x :: xs).length < (x :: xs).length :=
    Nat.mod_lt _ (by simp)
  simp only [hi, if_pos]
  omega

/-- Modelled from the spec: the seeded in-place shuffle of
`games/seed.py`, as used by `Card.get_shuffled_deck`. -/
def shuffle_with_seed (cards : List α) (seed : Nat) : List α :=
  shuffleGo (lcgNext seed) cards

/-- Embeds `Card.get_shuffled_deck`. -/
def Card.get_shuffled_deck (player_count : Nat) (seed : Nat) : List (Nat × Char) :=
  shuffle_with_seed (Card.get_ordered_cards_for_players player_count) seed

/-! ## Distribution model (`StatsView.chug_count_distribution`) -/

/-- The hypergeometric probability mass function, after the definition
used by `scipy.stats.hypergeom(M, n, N).pmf(k)`: `M` population size, `n`
success states, `N` draws. -/
def hypergeom_pmf (M n N k : Nat) : ℚ :=
  ((Nat.choose n k : ℚ) * (Nat.choose (M - n) (N - k) : ℚ)) / (Nat.choose M N : ℚ)

/-- Embeds `StatsView.chug_count_distribution(player_count)`: the exact pmf
`hypergeom(N=13p, K=p, n=13)`. -/
def chug_count_distribution (player_count : Nat) : Nat → ℚ :=
  fun k => hypergeom_pmf (13 * player_count) player_count 13 k

/-! ## Achievements (`games/achievements.py`) -/

/-- One row of `user.gameplayer_set` joined with its game, as consulted by
the achievement predicates. -/
structure GPJoin where
  dnf : Bool
  game_dnf : Bool
  game_end : Option ℚ
deriving DecidableEq, Repr

/-- Embeds `DNFAchievement.has_achieved(user)`:
`user.gameplayer_set.filter(dnf=True)
    .filter(game__dnf=False, game__end_datetime__isnull=False).exists()`. -/
def DNFAchievement.has_achieved (rows : List GPJoin) : Bool :=
  rows.any (fun r => r.dnf && !r.game_dnf && r.game_end.isSome)

/-- Embeds `Top10Achievement.has_achieved(user)` — textually the same queryset as
the DNF achievement, despite its description, Placed top 10 total sips in a season. -/
def Top10Achievement.has_achieved (rows : List GPJoin) : Bool :=
  rows.any (fun r => r.dnf && !r.game_dnf && r.game_end.isSome)

/-! ## Season model (`Season`, `games/models.py`)

Datetimes at the season level are embedded structurally as
(year, month, day, microsecond-of-day) with lexicographic comparison,
matching how Python compares `datetime` values; plain dates are the same
with the microsecond component zero. -/

/-- A UTC datetime, split into calendar fields; `micro` is the microsecond
within the day, `0 ≤ micro ≤ 86399999999`. -/
structure DT where
  year : Int
  month : Int
  day : Int
  micro : Int
deriving DecidableEq, Repr

/-- Python `datetime` comparison: lexicographic on the fields. -/
def DT.le (a b : DT) : Prop :=
  a.year < b.year ∨ (a.year = b.year ∧
    (a.month < b.month ∨ (a.month = b.month ∧
      (a.day < b.day ∨ (a.day = b.day ∧ a.micro ≤ b.micro)))))

def DT.lt (a b : DT) : Prop :=
  a.year < b.year ∨ (a.year = b.year ∧
    (a.month < b.month ∨ (a.month = b.month ∧
      (a.day < b.day ∨ (a.day = b.day ∧ a.micro < b.micro)))))

instance (a b : DT) : Decidable (DT.le a b) := by
  unfold DT.le; infer_instance

instance (a b : DT) : Decidable (DT.lt a b) := by
  unfold DT.lt; infer_instance

/-- Gregorian leap-year rule (as in Python's `calendar`). -/
def isLeapYear (y : Int) : Bool :=
  (y % 4 == 0 && y % 100 != 0) || y % 400 == 0

def daysInMonth (y m : Int) : Int :=
  if m = 2 then (if isLeapYear y then 29 else 28)
  else if m = 4 ∨ m = 6 ∨ m = 9 ∨ m = 11 then 30
  else 31

/-- A well-formed datetime. -/
def ValidDT (d : DT) : Prop :=
  1 ≤ d.month ∧ d.month ≤ 12 ∧ 1 ≤ d.day ∧ d.day ≤ daysInMonth d.year d.month ∧
    0 ≤ d.micro ∧ d.micro ≤ 86399999999

/-- One microsecond earlier (`- datetime.timedelta(microseconds=1)`). -/
def DT.pred (d : DT) : DT :=
  if 0 < d.micro then { d with micro := d.micro - 1 }
  else if 1 < d.day then { d with day := d.day - 1, micro := 86399999999 }
  else if 1 < d.month then
    { d with month := d.month - 1, day := daysInMonth d.year (d.month - 1),
             micro := 86399999999 }
  else { year := d.year - 1, month := 12, day := 31, micro := 86399999999 }

/-- One microsecond later. -/
def DT.succ (d : DT) : DT :=
  if d.micro < 86399999999 then { d with micro := d.micro + 1 }
  else if d.day < daysInMonth d.year d.month then
    { d with day := d.day + 1, micro := 0 }
  else if d.month < 12 then { d with month := d.month + 1, day := 1, micro := 0 }
  else { year := d.year + 1, month := 1, day := 1, micro := 0 }

/-- Embeds `Season.FIRST_SEASON_START = date(2013, 1, 1)`, as a midnight datetime. -/
def firstSeasonStart : DT := { year := 2013, month := 1, day := 1, micro := 0 }

/-- Embeds `Season(number).start_datetime`: `extra_half_years = number - 1` shifts
the epoch by `extra // 2` years, and to July when `extra % 2 == 1`
(Python floor division and modulo are `Int.fdiv`/`Int.fmod`, which agree
for the positive divisor 2). -/
def Season.start_datetime (number : Int) : DT :=
  let extra := number - 1
  { year := 2013 + Int.fdiv extra 2
    month := if Int.fmod extra 2 = 1 then 7 else 1
    day := 1
    micro := 0 }

/-- Embeds `Season(number).end_datetime = Season(number+1).start_datetime - 1μs`. -/
def Season.end_datetime (number : Int) : DT :=
  DT.pred (Season.start_datetime (number + 1))

/-- Embeds `Season.season_from_date(date)`: only the date's year and month are
consulted. -/
def Season.season_from_date (year month : Int) : Int :=
  2 * (year - 2013) + 1 + (if 7 ≤ month then 1 else 0)

/-- Embeds `Season.current_season()` = `season_from_date(date.today())`, with
today supplied as a parameter. -/
def Season.current_season (today : DT) : Int :=
  Season.season_from_date today.year today.month

/-! ## Order-insensitive specification of the aggregate

The replay in `recalculate` and the incremental path both fold
`update_from_new_game`; the following definitions give a clean per-game
summary and a per-field, order-insensitive view used to compare the two
fold orders. -/

/-- The cards at draw positions congruent to `pidx` modulo `n`, the
position count starting at `k`: the player's own cards. -/
def seatCards (n pidx : Nat) (k : Nat) : List CardRec → List CardRec
  | [] => []
  | c :: cs =>
    if k % n = pidx then c :: seatCards n pidx (k + 1) cs
    else seatCards n pidx (k + 1) cs

/-- The seat position of user `u` in game `g` (0 if absent). -/
def gamePos (u : UserId) (g : GameRec) : Nat :=
  match g.findGP u with
  | some gp => gp.position
  | none => 0

/-- The cards of game `g` owned by user `u` (round-robin by draw index). -/
def playerCards (u : UserId) (g : GameRec) : List CardRec :=
  seatCards g.players_count (gamePos u g) 0 g.ordered_cards

/-- The player's sip total in the game: the sum of their card values. -/
def gameSips (u : UserId) (g : GameRec) : Nat :=
  ((playerCards u g).map (fun c => c.value)).sum

/-- The player's chugs in the game, in draw order. -/
def gameChugs (u : UserId) (g : GameRec) : List ChugRec :=
  (playerCards u g).filterMap (fun c => c.chug)

/-- What one qualifying game contributes to the aggregate. -/
structure GameSummary where
  gid : Nat
  sips : Nat
  dur : ℚ
  chugs : List ChugRec
deriving DecidableEq, Repr

/-- The summary of game `g` for user `u`; `dur` is the game duration in
seconds, `0` when absent (adding `0` equals the source's skipped add). -/
def gameSummary (u : UserId) (g : GameRec) : GameSummary :=
  { gid := g.id
    sips := gameSips u g
    dur := (g.get_duration).getD 0
    chugs := gameChugs u g }

/-- Embeds `fastest_chug` update for one chug: keep the strictly faster one,
first seen wins ties. -/
def minChug (cur : Option ChugRec) (ch : ChugRec) : Option ChugRec :=
  match cur with
  | none => some ch
  | some f => if ch.duration_ms < f.duration_ms then some ch else some f

/-- What `update_from_new_game` does to the record on a qualifying game,
expressed through the game's summary. -/
def specStep (s : PlayerStat) (m : GameSummary) : PlayerStat :=
  let chugsT := s.total_chugs + m.chugs.length
  let ctimeT := s.reconChugTime + (m.chugs.map (fun ch => chugSecs ch.duration_ms)).sum
  let s1 : PlayerStat :=
    { s with
      total_games := s.total_games + 1
      total_time_played_seconds := s.total_time_played_seconds + m.dur
      total_chugs := chugsT
      fastest_chug := m.chugs.foldl minChug s.fastest_chug
      total_sips := s.total_sips + m.sips }
  let s2 :=
    if s1.best_game.isNone ∨ m.sips > s1.best_game_sips.getD 0 then
      { s1 with best_game := some m.gid, best_game_sips := some m.sips }
    else s1
  let s3 :=
    if s2.worst_game.isNone ∨ m.sips < s2.worst_game_sips.getD 0 then
      { s2 with worst_game := some m.gid, worst_game_sips := some m.sips }
    else s2
  if s3.total_chugs > 0 then
    { s3 with average_chug_time_seconds := some (ctimeT / (s3.total_chugs : ℚ)) }
  else s3

/-- The summaries of the qualifying games of a history, in its order. -/
def qualSummaries (u : UserId) (gs : List GameRec) : List GameSummary :=
  (gs.filter (qualifies u)).map (gameSummary u)

/-- Option-valued maximum accumulator (the best-game comparison: a later
value replaces only when strictly greater). -/
def maxO (a : Option Nat) (x : Nat) : Option Nat :=
  match a with
  | none => some x
  | some m => if x > m then some x else some m

/-- Option-valued minimum accumulator (worst game, fastest chug). -/
def minO (a : Option Nat) (x : Nat) : Option Nat :=
  match a with
  | none => some x
  | some m => if x < m then some x else some m

/-- The order-insensitive numeric view of a `PlayerStat`. -/
structure NumView where
  games : Nat
  time : ℚ
  sips : Nat
  bestS : Option Nat
  worstS : Option Nat
  chugs : Nat
  ctime : ℚ
  fastMs : Option Nat
deriving DecidableEq, Repr

def PlayerStat.numOf (s : PlayerStat) : NumView :=
  { games := s.total_games
    time := s.total_time_played_seconds
    sips := s.total_sips
    bestS := s.best_game_sips
    worstS := s.worst_game_sips
    chugs := s.total_chugs
    ctime := s.reconChugTime
    fastMs := s.fastest_chug.map (fun ch => ch.duration_ms) }

/-- One game's effect on the numeric view. -/
def addS (v : NumView) (m : GameSummary) : NumView :=
  { games := v.games + 1
    time := v.time + m.dur
    sips := v.sips + m.sips
    bestS := maxO v.bestS m.sips
    worstS := minO v.worstS m.sips
    chugs := v.chugs + m.chugs.length
    ctime := v.ctime + (m.chugs.map (fun ch => chugSecs ch.duration_ms)).sum
    fastMs := (m.chugs.map (fun ch => ch.duration_ms)).foldl minO v.fastMs }

/-- Internal consistency of a `PlayerStat`, maintained by the aggregator
from a reset record: the best/worst references and their sip counts are
set together, and the stored average is the retained total chug time over
the chug count. -/
def GoodStat (s : PlayerStat) : Prop :=
  (s.best_game = none ↔ s.best_game_sips = none) ∧
  (s.worst_game = none ↔ s.worst_game_sips = none) ∧
  (s.total_chugs = 0 → s.average_chug_time_seconds = none) ∧
  (0 < s.total_chugs →
    s.average_chug_time_seconds = some (s.reconChugTime / (s.total_chugs : ℚ)))

/-- Best-game accumulator on (game id, sips) pairs: first maximum wins. -/
def bstep (cur : Option (Nat × Nat)) (p : Nat × Nat) : Option (Nat × Nat) :=
  match cur with
  | none => some p
  | some q => if p.2 > q.2 then some p else some q

/-- Worst-game accumulator: first minimum wins. -/
def wstep (cur : Option (Nat × Nat)) (p : Nat × Nat) : Option (Nat × Nat) :=
  match cur with
  | none => some p
  | some q => if p.2 < q.2 then some p else some q

/-- The best-game reference of a record, paired with its sip count. -/
def PlayerStat.bestPair (s : PlayerStat) : Option (Nat × Nat) :=
  match s.best_game, s.best_game_sips with
  | some i, some v => some (i, v)
  | _, _ => none

def PlayerStat.worstPair (s : PlayerStat) : Option (Nat × Nat) :=
  match s.worst_game, s.worst_game_sips with
  | some i, some v => some (i, v)
  | _, _ => none

/-! ## Per-seat sums specifying `get_player_stats` -/

/-- The total sips of seat `i`: the sum of the values of the cards at draw
positions congruent to `i` modulo the player count. -/
def specSeatSips (g : GameRec) (i : Nat) : Nat :=
  ((seatCards g.players_count i 0 g.ordered_cards).map (fun c => c.value)).sum

/-- The turn durations attributed to seat `i` (delta of consecutive global
draw timestamps, round-robin by duration index). -/
def seatDurations (n i : Nat) (k : Nat) : List ℚ → List ℚ
  | [] => []
  | d :: ds =>
    if k % n = i then d :: seatDurations n i (k + 1) ds
    else seatDurations n i (k + 1) ds

/-- The total time of seat `i`, `none` when the game has no timing data. -/
def specSeatTime (g : GameRec) (i : Nat) : Option ℚ :=
  if g.hasTiming then
    some (seatDurations g.players_count i 0 g.get_turn_durations).sum
  else none

/-- The seat that drew the most recent card, with that card's value. -/
def lastSeat (g : GameRec) : Option (Nat × Nat) :=
  g.ordered_cards.getLast?.map
    (fun c => ((g.ordered_cards.length - 1) % g.players_count, c.value))

/-! ## The card loop computes the per-seat summary -/

theorem cardLoop_eq (n pidx : Nat) :
    ∀ (cs : List CardRec) (k : Nat) (acc : CardAcc),
      cardLoop n pidx k acc cs =
        { game_sips := acc.game_sips +
            ((seatCards n pidx k cs).map (fun c => c.value)).sum
          total_chugs := acc.total_chugs +
            ((seatCards n pidx k cs).filterMap (fun c => c.chug)).length
          total_chug_time := acc.total_chug_time +
            (((seatCards n pidx k cs).filterMap (fun c => c.chug)).map
              (fun ch => chugSecs ch.duration_ms)).sum
          fastest_chug := ((seatCards n pidx k cs).filterMap (fun c => c.chug)).foldl
            minChug acc.fastest_chug } := by
  intro cs
  induction cs with
  | nil =>
    intro k acc
    simp [cardLoop, seatCards]
  | cons c cs ih =>
    intro k acc
    by_cases hk : k % n = pidx
    · cases hch : c.chug with
      | none =>
        simp only [cardLoop, cardStep, seatCards, hk, if_pos, hch]
        rw [ih]
        simp [CardAcc.mk.injEq, hch, List.filterMap_cons]
        omega
      | some ch =>
        simp only [cardLoop, cardStep, seatCards, hk, if_pos, hch]
        rw [ih]
        simp [CardAcc.mk.injEq, hch, List.filterMap_cons, minChug]
        repeat' constructor
        all_goals first | omega | ring
    · simp only [cardLoop, cardStep, seatCards, hk, if_neg, ite_false]
      rw [ih]

/-! ## `update_from_new_game`: case lemmas -/

theorem addDuration_eq (t : ℚ) (o : Option ℚ) :
    (match o with
     | some d => if d = 0 then t else t + d
     | none => t) = t + o.getD 0 := by
  cases o with
  | none => simp
  | some d =>
    by_cases hd : d = 0 <;> simp [hd]

/-- Unofficial or DNF games are skipped before anything is touched. -/
theorem update_noop_unofficial (ps : PlayerStat) (g : GameRec)
    (h : g.official = false ∨ g.dnf = true) :
    ps.update_from_new_game g = some ps := by
  unfold PlayerStat.update_from_new_game
  rw [if_pos h]

/-- A game in which the player personally DNF'd is skipped. -/
theorem update_noop_player_dnf (ps : PlayerStat) (g : GameRec) (gp : GamePlayerRec)
    (hoff : g.official = true) (hdnf : g.dnf = false)
    (hfind : g.findGP ps.user = some gp) (hgp : gp.dnf = true) :
    ps.update_from_new_game g = some ps := by
  unfold PlayerStat.update_from_new_game
  rw [if_neg (by simp [hoff, hdnf]), hfind]
  simp [hgp]

/-- A missing gameplayer row raises (`GamePlayer.DoesNotExist`). -/
theorem update_missing_gp (ps : PlayerStat) (g : GameRec)
    (hoff : g.official = true) (hdnf : g.dnf = false)
    (hfind : g.findGP ps.user = none) :
    ps.update_from_new_game g = none := by
  unfold PlayerStat.update_from_new_game
  rw [if_neg (by simp [hoff, hdnf]), hfind]

/-- On a qualifying game, `update_from_new_game` is exactly `specStep`
applied to the game's summary. -/
theorem update_qualifying (ps : PlayerStat) (g : GameRec) (gp : GamePlayerRec)
    (hoff : g.official = true) (hdnf : g.dnf = false)
    (hfind : g.findGP ps.user = some gp) (hgp : gp.dnf = false) :
    ps.update_from_new_game g = some (specStep ps (gameSummary ps.user g)) := by
  unfold PlayerStat.update_from_new_game
  rw [if_neg (by simp [hoff, hdnf]), hfind]
  simp only [hgp, Bool.false_eq_true, if_false]
  rw [cardLoop_eq, addDuration_eq]
  unfold specStep gameSummary gameSips gameChugs playerCards gamePos
  rw [hfind]
  simp only [Nat.zero_add]

theorem specStep_user (s : PlayerStat) (m : GameSummary) :
    (specStep s m).user = s.user := by
  simp only [specStep]
  repeat' split
  all_goals rfl

theorem specStep_season (s : PlayerStat) (m : GameSummary) :
    (specStep s m).season_number = s.season_number := by
  simp only [specStep]
  repeat' split
  all_goals rfl

/-- The replay fold equals the `specStep` fold over the qualifying games'
summaries, provided each official non-DNF game has a gameplayer row for
the user. -/
theorem foldlM_update_eq (u : UserId) :
    ∀ (gs : List GameRec) (s : PlayerStat), s.user = u →
      (∀ g ∈ gs, g.official = true → g.dnf = false → (g.findGP u).isSome) →
      gs.foldlM PlayerStat.update_from_new_game s =
        some ((qualSummaries u gs).foldl specStep s) := by
  intro gs
  induction gs with
  | nil =>
    intro s _ _
    simp [qualSummaries]
  | cons g gs ih =>
    intro s hu hwf
    have hwf' : ∀ g' ∈ gs, g'.official = true → g'.dnf = false →
        (g'.findGP u).isSome := by
      intro g' hg' ho hd
      exact hwf g' (List.mem_cons_of_mem _ hg') ho hd
    rw [List.foldlM_cons]
    by_cases hoff : g.official = true
    · by_cases hdnf : g.dnf = false
      · have hsome : (g.findGP u).isSome := hwf g (List.mem_cons_self _ _) hoff hdnf
        cases hfind : g.findGP u with
        | none => rw [hfind] at hsome; simp at hsome
        | some gp =>
          by_cases hgp : gp.dnf = true
          · have hnq : qualifies u g = false := by
              unfold qualifies
              rw [hfind]
              simp [hgp]
            rw [update_noop_player_dnf s g gp hoff hdnf (hu ▸ hfind) hgp]
            have : qualSummaries u (g :: gs) = qualSummaries u gs := by
              unfold qualSummaries
              rw [List.filter_cons_of_neg (by simp [hnq])]
            rw [this] at *
            simpa using ih s hu hwf'
          · have hgp' : gp.dnf = false := by
              cases h : gp.dnf
              · rfl
              · exact absurd h hgp
            have hq : qualifies u g = true := by
              unfold qualifies
              rw [hfind]
              simp [hoff, hdnf, hgp']
            rw [update_qualifying s g gp hoff hdnf (hu ▸ hfind) hgp']
            have hqs : qualSummaries u (g :: gs) =
                gameSummary u g :: qualSummaries u gs := by
              unfold qualSummaries
              rw [List.filter_cons_of_pos (by simp [hq])]
              rfl
            rw [hqs, List.foldl_cons]
            have hstep := ih (specStep s (gameSummary u g))
              (by rw [specStep_user, hu]) hwf'
            simpa [hu] using hstep
      · have hdnf' : g.dnf = true := by
          cases h : g.dnf
          · exact absurd h hdnf
          · rfl
        rw [update_noop_unofficial s g (Or.inr hdnf')]
        have : qualSummaries u (g :: gs) = qualSummaries u gs := by
          unfold qualSummaries
          rw [List.filter_cons_of_neg (by simp [qualifies, hdnf'])]
        rw [this]
        simpa using ih s hu hwf'
    · have hoff' : g.official = false := by
        cases h : g.official
        · rfl
        · exact absurd h hoff
      rw [update_noop_unofficial s g (Or.inl hoff')]
      have : qualSummaries u (g :: gs) = qualSummaries u gs := by
        unfold qualSummaries
        rw [List.filter_cons_of_neg (by simp [qualifies, hoff'])]
      rw [this]
      simpa using ih s hu hwf'

/-! ## Projections of `specStep` -/

theorem specStep_total_games (s : PlayerStat) (m : GameSummary) :
    (specStep s m).total_games = s.total_games + 1 := by
  simp only [specStep]
  repeat' split
  all_goals rfl

theorem specStep_total_time (s : PlayerStat) (m : GameSummary) :
    (specStep s m).total_time_played_seconds =
      s.total_time_played_seconds + m.dur := by
  simp only [specStep]
  repeat' split
  all_goals rfl

theorem specStep_total_sips (s : PlayerStat) (m : GameSummary) :
    (specStep s m).total_sips = s.total_sips + m.sips := by
  simp only [specStep]
  repeat' split
  all_goals rfl

theorem specStep_total_chugs (s : PlayerStat) (m : GameSummary) :
    (specStep s m).total_chugs = s.total_chugs + m.chugs.length := by
  simp only [specStep]
  repeat' split
  all_goals rfl

theorem specStep_fastest (s : PlayerStat) (m : GameSummary) :
    (specStep s m).fastest_chug = m.chugs.foldl minChug s.fastest_chug := by
  simp only [specStep]
  repeat' split
  all_goals rfl

theorem specStep_best_game (s : PlayerStat) (m : GameSummary) :
    (specStep s m).best_game =
      if s.best_game.isNone = true ∨ m.sips > s.best_game_sips.getD 0 then some m.gid
      else s.best_game := by
  simp only [specStep]
  repeat' split
  all_goals simp_all

theorem specStep_best_game_sips (s : PlayerStat) (m : GameSummary) :
    (specStep s m).best_game_sips =
      if s.best_game.isNone = true ∨ m.sips > s.best_game_sips.getD 0 then some m.sips
      else s.best_game_sips := by
  simp only [specStep]
  repeat' split
  all_goals simp_all

theorem specStep_worst_game (s : PlayerStat) (m : GameSummary) :
    (specStep s m).worst_game =
      if s.worst_game.isNone = true ∨ m.sips < s.worst_game_sips.getD 0 then some m.gid
      else s.worst_game := by
  simp only [specStep]
  repeat' split
  all_goals simp_all

theorem specStep_worst_game_sips (s : PlayerStat) (m : GameSummary) :
    (specStep s m).worst_game_sips =
      if s.worst_game.isNone = true ∨ m.sips < s.worst_game_sips.getD 0 then some m.sips
      else s.worst_game_sips := by
  simp only [specStep]
  repeat' split
  all_goals simp_all

theorem specStep_avg (s : PlayerStat) (m : GameSummary) :
    (specStep s m).average_chug_time_seconds =
      if s.total_chugs + m.chugs.length > 0 then
        some ((s.reconChugTime +
            (m.chugs.map (fun ch => chugSecs ch.duration_ms)).sum) /
          ((s.total_chugs + m.chugs.length : Nat) : ℚ))
      else s.average_chug_time_seconds := by
  simp only [specStep]
  repeat' split
  all_goals simp_all

/-! ## Option-valued extrema -/

theorem maxO_some (m x : Nat) : maxO (some m) x = some (max m x) := by
  simp only [maxO]
  split <;> simp only [Option.some.injEq] <;> omega

theorem minO_some (m x : Nat) : minO (some m) x = some (min m x) := by
  simp only [minO]
  split <;> simp only [Option.some.injEq] <;> omega

theorem maxO_comm (a : Option Nat) (x y : Nat) :
    maxO (maxO a x) y = maxO (maxO a y) x := by
  cases a with
  | none =>
    simp only [maxO]
    split <;> split <;> simp only [Option.some.injEq] <;> omega
  | some m =>
    simp only [maxO_some, Option.some.injEq]
    omega

theorem minO_comm (a : Option Nat) (x y : Nat) :
    minO (minO a x) y = minO (minO a y) x := by
  cases a with
  | none =>
    simp only [minO]
    split <;> split <;> simp only [Option.some.injEq] <;> omega
  | some m =>
    simp only [minO_some, Option.some.injEq]
    omega

theorem foldl_minO_swap (f : Option Nat) (l1 l2 : List Nat) :
    List.foldl minO (List.foldl minO f l1) l2 =
      List.foldl minO (List.foldl minO f l2) l1 := by
  rw [← List.foldl_append, ← List.foldl_append]
  exact List.perm_append_comm.foldl_eq' (fun x _ y _ z => minO_comm z x y) f

/-- Projecting the fastest-chug fold to durations. -/
theorem foldl_minChug_map (l : List ChugRec) :
    ∀ cur : Option ChugRec,
      (l.foldl minChug cur).map (fun ch => ch.duration_ms) =
        (l.map (fun ch => ch.duration_ms)).foldl minO
          (cur.map (fun ch => ch.duration_ms)) := by
  induction l with
  | nil => intro cur; rfl
  | cons ch l ih =>
    intro cur
    rw [List.foldl_cons, List.map_cons, List.foldl_cons, ih]
    congr 1
    cases cur with
    | none => rfl
    | some f =>
      simp only [minChug, minO, Option.map_some']
      split <;> rfl

/-! ## `GoodStat` invariants and the numeric view of a fold -/

theorem reset_good (ps : PlayerStat) : GoodStat ps.reset := by
  unfold GoodStat PlayerStat.reset
  simp

/-- When the average field holds `T` over the chug count, the
reconstructed retained chug time is exactly `T`. -/
theorem recon_of_avg (s : PlayerStat) (T : ℚ) (hpos : 0 < s.total_chugs)
    (havg : s.average_chug_time_seconds = some (T / (s.total_chugs : ℚ))) :
    s.reconChugTime = T := by
  unfold PlayerStat.reconChugTime
  rw [havg]
  dsimp only
  by_cases hT : T = 0
  · simp [hT]
  · have hden : ((s.total_chugs : Nat) : ℚ) ≠ 0 := by
      simp only [ne_eq, Nat.cast_eq_zero]
      omega
    rw [if_neg (div_ne_zero hT hden)]
    field_simp

theorem recon_of_none (s : PlayerStat)
    (havg : s.average_chug_time_seconds = none) : s.reconChugTime = 0 := by
  unfold PlayerStat.reconChugTime
  rw [havg]

/-- The retained chug time after a step is the old one plus the game's
chug seconds. -/
theorem specStep_recon (s : PlayerStat) (m : GameSummary) (hs : GoodStat s) :
    (specStep s m).reconChugTime =
      s.reconChugTime + (m.chugs.map (fun ch => chugSecs ch.duration_ms)).sum := by
  obtain ⟨_, _, hz, _⟩ := hs
  by_cases h : 0 < s.total_chugs + m.chugs.length
  · apply recon_of_avg
    · rw [specStep_total_chugs]
      exact h
    · rw [specStep_avg, specStep_total_chugs, if_pos h]
  · have hc0 : s.total_chugs = 0 := by omega
    have hm0 : m.chugs = [] := List.length_eq_zero.mp (by omega)
    have h1 : (specStep s m).average_chug_time_seconds = none := by
      rw [specStep_avg, if_neg (by omega), hz hc0]
    rw [recon_of_none _ h1, recon_of_none s (hz hc0), hm0]
    simp

theorem specStep_bestS (s : PlayerStat) (m : GameSummary) (hs : GoodStat s) :
    (specStep s m).best_game_sips = maxO s.best_game_sips m.sips := by
  obtain ⟨hb, _, _, _⟩ := hs
  rw [specStep_best_game_sips]
  cases hbg : s.best_game with
  | none =>
    have h2 : s.best_game_sips = none := hb.mp hbg
    simp [h2, maxO]
  | some i =>
    cases hbs : s.best_game_sips with
    | none =>
      have hcon := hb.mpr hbs
      rw [hbg] at hcon
      simp at hcon
    | some v =>
      rw [maxO_some]
      simp only [hbg, hbs, Option.isNone_some, Bool.false_eq_true, false_or,
        Option.getD_some]
      split <;> simp only [Option.some.injEq] <;> omega

theorem specStep_worstS (s : PlayerStat) (m : GameSummary) (hs : GoodStat s) :
    (specStep s m).worst_game_sips = minO s.worst_game_sips m.sips := by
  obtain ⟨_, hw, _, _⟩ := hs
  rw [specStep_worst_game_sips]
  cases hwg : s.worst_game with
  | none =>
    have h2 : s.worst_game_sips = none := hw.mp hwg
    simp [h2, minO]
  | some i =>
    cases hws : s.worst_game_sips with
    | none =>
      have hcon := hw.mpr hws
      rw [hwg] at hcon
      simp at hcon
    | some v =>
      rw [minO_some]
      simp only [hwg, hws, Option.isNone_some, Bool.false_eq_true, false_or,
        Option.getD_some]
      split <;> simp only [Option.some.injEq] <;> omega

theorem specStep_good (s : PlayerStat) (m : GameSummary) (hs : GoodStat s) :
    GoodStat (specStep s m) := by
  obtain ⟨hb, hw, hz, hp⟩ := hs
  refine ⟨?_, ?_, ?_, ?_⟩
  · rw [specStep_best_game, specStep_best_game_sips]
    split
    · simp
    · exact hb
  · rw [specStep_worst_game, specStep_worst_game_sips]
    split
    · simp
    · exact hw
  · intro h0
    rw [specStep_total_chugs] at h0
    rw [specStep_avg, if_neg (by omega)]
    exact hz (by omega)
  · intro h0
    rw [specStep_total_chugs] at h0
    rw [specStep_avg, if_pos h0, specStep_recon s m ⟨hb, hw, hz, hp⟩,
      specStep_total_chugs]

theorem specStep_numOf (s : PlayerStat) (m : GameSummary) (hs : GoodStat s) :
    (specStep s m).numOf = addS s.numOf m := by
  unfold PlayerStat.numOf addS
  simp only [NumView.mk.injEq]
  refine ⟨specStep_total_games s m, specStep_total_time s m,
    specStep_total_sips s m, specStep_bestS s m hs, specStep_worstS s m hs,
    specStep_total_chugs s m, specStep_recon s m hs, ?_⟩
  rw [specStep_fastest, foldl_minChug_map]

/-! ## Fold-level characterizations -/

theorem foldl_specStep_good :
    ∀ (ms : List GameSummary) (s : PlayerStat), GoodStat s →
      GoodStat (List.foldl specStep s ms) := by
  intro ms
  induction ms with
  | nil => intro s hs; exact hs
  | cons m ms ih =>
    intro s hs
    rw [List.foldl_cons]
    exact ih _ (specStep_good s m hs)

theorem foldl_specStep_numOf :
    ∀ (ms : List GameSummary) (s : PlayerStat), GoodStat s →
      (List.foldl specStep s ms).numOf = List.foldl addS s.numOf ms := by
  intro ms
  induction ms with
  | nil => intro s _; rfl
  | cons m ms ih =>
    intro s hs
    rw [List.foldl_cons, List.foldl_cons, ← specStep_numOf s m hs]
    exact ih _ (specStep_good s m hs)

theorem foldl_specStep_user :
    ∀ (ms : List GameSummary) (s : PlayerStat),
      (List.foldl specStep s ms).user = s.user := by
  intro ms
  induction ms with
  | nil => intro s; rfl
  | cons m ms ih =>
    intro s
    rw [List.foldl_cons, ih, specStep_user]

theorem foldl_specStep_season :
    ∀ (ms : List GameSummary) (s : PlayerStat),
      (List.foldl specStep s ms).season_number = s.season_number := by
  intro ms
  induction ms with
  | nil => intro s; rfl
  | cons m ms ih =>
    intro s
    rw [List.foldl_cons, ih, specStep_season]

theorem foldl_specStep_fastest :
    ∀ (ms : List GameSummary) (s : PlayerStat),
      (List.foldl specStep s ms).fastest_chug =
        List.foldl minChug s.fastest_chug (ms.flatMap (fun m => m.chugs)) := by
  intro ms
  induction ms with
  | nil => intro s; rfl
  | cons m ms ih =>
    intro s
    rw [List.foldl_cons, List.flatMap_cons, List.foldl_append, ih, specStep_fastest]

theorem addS_comm (v : NumView) (m m' : GameSummary) :
    addS (addS v m) m' = addS (addS v m') m := by
  unfold addS
  simp only [NumView.mk.injEq]
  repeat' constructor
  · ring
  · ring
  · exact maxO_comm _ _ _
  · exact minO_comm _ _ _
  · ring
  · ring
  · exact foldl_minO_swap _ _ _

/-- The stored average is a function of the numeric view for consistent
records. -/
theorem avg_of_good (s : PlayerStat) (hs : GoodStat s) :
    s.average_chug_time_seconds =
      if 0 < s.total_chugs then some (s.reconChugTime / (s.total_chugs : ℚ))
      else none := by
  obtain ⟨_, _, hz, hp⟩ := hs
  by_cases h : 0 < s.total_chugs
  · rw [if_pos h]
    exact hp h
  · rw [if_neg h]
    exact hz (by omega)

theorem bestPair_fst (s : PlayerStat) (hs : GoodStat s) :
    s.best_game = s.bestPair.map Prod.fst ∧
      s.best_game_sips = s.bestPair.map Prod.snd := by
  obtain ⟨hb, _, _, _⟩ := hs
  unfold PlayerStat.bestPair
  cases hbg : s.best_game with
  | none =>
    have h2 := hb.mp hbg
    simp [h2]
  | some i =>
    cases hbs : s.best_game_sips with
    | none =>
      have hcon := hb.mpr hbs
      rw [hbg] at hcon
      simp at hcon
    | some v => simp

theorem worstPair_fst (s : PlayerStat) (hs : GoodStat s) :
    s.worst_game = s.worstPair.map Prod.fst ∧
      s.worst_game_sips = s.worstPair.map Prod.snd := by
  obtain ⟨_, hw, _, _⟩ := hs
  unfold PlayerStat.worstPair
  cases hwg : s.worst_game with
  | none =>
    have h2 := hw.mp hwg
    simp [h2]
  | some i =>
    cases hws : s.worst_game_sips with
    | none =>
      have hcon := hw.mpr hws
      rw [hwg] at hcon
      simp at hcon
    | some v => simp

theorem specStep_bestPair (s : PlayerStat) (m : GameSummary) (hs : GoodStat s) :
    (specStep s m).bestPair = bstep s.bestPair (m.gid, m.sips) := by
  obtain ⟨hb, _, _, _⟩ := hs
  unfold PlayerStat.bestPair bstep
  rw [specStep_best_game, specStep_best_game_sips]
  cases hbg : s.best_game with
  | none =>
    have h2 := hb.mp hbg
    simp [h2]
  | some i =>
    cases hbs : s.best_game_sips with
    | none =>
      have hcon := hb.mpr hbs
      rw [hbg] at hcon
      simp at hcon
    | some v =>
      simp only [hbg, hbs, Option.isNone_some, Bool.false_eq_true, false_or,
        Option.getD_some]
      by_cases hgt : m.sips > v
      · simp [hgt]
      · simp [hgt]

theorem specStep_worstPair (s : PlayerStat) (m : GameSummary) (hs : GoodStat s) :
    (specStep s m).worstPair = wstep s.worstPair (m.gid, m.sips) := by
  obtain ⟨_, hw, _, _⟩ := hs
  unfold PlayerStat.worstPair wstep
  rw [specStep_worst_game, specStep_worst_game_sips]
  cases hwg : s.worst_game with
  | none =>
    have h2 := hw.mp hwg
    simp [h2]
  | some i =>
    cases hws : s.worst_game_sips with
    | none =>
      have hcon := hw.mpr hws
      rw [hwg] at hcon
      simp at hcon
    | some v =>
      simp only [hwg, hws, Option.isNone_some, Bool.false_eq_true, false_or,
        Option.getD_some]
      by_cases hlt : m.sips < v
      · simp [hlt]
      · simp [hlt]

theorem foldl_specStep_bestPair :
    ∀ (ms : List GameSummary) (s : PlayerStat), GoodStat s →
      (List.foldl specStep s ms).bestPair =
        List.foldl bstep s.bestPair (ms.map (fun m => (m.gid, m.sips))) := by
  intro ms
  induction ms with
  | nil => intro s _; rfl
  | cons m ms ih =>
    intro s hs
    rw [List.foldl_cons, List.map_cons, List.foldl_cons,
      ← specStep_bestPair s m hs]
    exact ih _ (specStep_good s m hs)

theorem foldl_specStep_worstPair :
    ∀ (ms : List GameSummary) (s : PlayerStat), GoodStat s →
      (List.foldl specStep s ms).worstPair =
        List.foldl wstep s.worstPair (ms.map (fun m => (m.gid, m.sips))) := by
  intro ms
  induction ms with
  | nil => intro s _; rfl
  | cons m ms ih =>
    intro s hs
    rw [List.foldl_cons, List.map_cons, List.foldl_cons,
      ← specStep_worstPair s m hs]
    exact ih _ (specStep_good s m hs)

/-! ## First-winner extremum folds

`bstep`, `wstep` and `minChug` all keep a running champion that is
replaced only when strictly beaten; the following generic lemmas show the
champion of such a fold is an element of the list beaten by nobody, and
that, when the keys are pairwise distinct, the champion does not depend on
the order of the list. -/

/-- Generic first-winner step: replace the champion iff the new element's
key strictly beats it under `R`. -/
def pickStep (R : Nat → Nat → Bool) (k : α → Nat) (cur : Option α) (x : α) :
    Option α :=
  match cur with
  | none => some x
  | some q => if R (k x) (k q) then some x else some q

theorem bstep_eq_pick :
    bstep = pickStep (fun a b => decide (b < a)) (fun p : Nat × Nat => p.2) := by
  funext cur p
  cases cur <;> simp [bstep, pickStep]

theorem wstep_eq_pick :
    wstep = pickStep (fun a b => decide (a < b)) (fun p : Nat × Nat => p.2) := by
  funext cur p
  cases cur <;> simp [wstep, pickStep]

theorem minChug_eq_pick :
    minChug = pickStep (fun a b => decide (a < b)) (fun ch : ChugRec => ch.duration_ms) := by
  funext cur ch
  cases cur <;> simp [minChug, pickStep]

theorem pickStep_isSome (R : Nat → Nat → Bool) (k : α → Nat)
    (cur : Option α) (x : α) : (pickStep R k cur x).isSome := by
  cases cur with
  | none => rfl
  | some q =>
    show (if R (k x) (k q) then some x else some q).isSome
    split <;> rfl

theorem pickFold_some (R : Nat → Nat → Bool) (k : α → Nat) :
    ∀ (l : List α) (c : α),
      (List.foldl (pickStep R k) (some c) l).isSome := by
  intro l
  induction l with
  | nil => intro c; rfl
  | cons x l ih =>
    intro c
    rw [List.foldl_cons]
    show (List.foldl (pickStep R k) (pickStep R k (some c) x) l).isSome
    have hp : pickStep R k (some c) x =
        if R (k x) (k c) then some x else some c := rfl
    rw [hp]
    split
    · exact ih x
    · exact ih c

theorem pickFold_none_iff (R : Nat → Nat → Bool) (k : α → Nat)
    (l : List α) (cur : Option α) :
    List.foldl (pickStep R k) cur l = none ↔ cur = none ∧ l = [] := by
  cases l with
  | nil => simp
  | cons x l =>
    rw [List.foldl_cons]
    constructor
    · intro h
      obtain ⟨c, hc⟩ := Option.isSome_iff_exists.mp (pickStep_isSome R k cur x)
      rw [hc] at h
      have := pickFold_some R k l c
      rw [h] at this
      simp at this
    · intro h
      exact absurd h.2 (by simp)

/-- The champion of a first-winner fold: it came from the start or the
list, nothing in the list beats it, and the start does not beat it. -/
theorem pickFold_spec (R : Nat → Nat → Bool) (k : α → Nat)
    (hirr : ∀ a, R a a = false)
    (hneg : ∀ a b c, R a b = false → R b c = false → R a c = false)
    (hmix : ∀ a b c, R a b = true → R a c = false → R b c = false) :
    ∀ (l : List α) (cur : Option α) (r : α),
      List.foldl (pickStep R k) cur l = some r →
      (cur = some r ∨ r ∈ l) ∧
      (∀ q ∈ l, R (k q) (k r) = false) ∧
      (∀ c, cur = some c → R (k c) (k r) = false) := by
  intro l
  induction l with
  | nil =>
    intro cur r h
    rw [List.foldl_nil] at h
    refine ⟨Or.inl h, by simp, ?_⟩
    intro c hc
    rw [hc] at h
    obtain rfl := Option.some.inj h
    exact hirr (k c)
  | cons x l ih =>
    intro cur r h
    rw [List.foldl_cons] at h
    cases cur with
    | none =>
      obtain ⟨h1, h2, h3⟩ := ih (some x) r (by simpa [pickStep] using h)
      refine ⟨?_, ?_, by simp⟩
      · rcases h1 with h1 | h1
        · obtain rfl := Option.some.inj h1
          exact Or.inr (List.mem_cons_self _ _)
        · exact Or.inr (List.mem_cons_of_mem _ h1)
      · intro q hq
        rcases List.mem_cons.mp hq with rfl | hq
        · exact h3 q rfl
        · exact h2 q hq
    | some c0 =>
      by_cases hR : R (k x) (k c0) = true
      · have hcur : pickStep R k (some c0) x = some x := by
          simp [pickStep, hR]
        rw [hcur] at h
        obtain ⟨h1, h2, h3⟩ := ih (some x) r h
        have hxr : R (k x) (k r) = false := h3 x rfl
        refine ⟨?_, ?_, ?_⟩
        · rcases h1 with h1 | h1
          · obtain rfl := Option.some.inj h1
            exact Or.inr (List.mem_cons_self _ _)
          · exact Or.inr (List.mem_cons_of_mem _ h1)
        · intro q hq
          rcases List.mem_cons.mp hq with rfl | hq
          · exact hxr
          · exact h2 q hq
        · intro c hc
          rw [← Option.some.inj hc]
          exact hmix (k x) (k c0) (k r) hR hxr
      · have hR' : R (k x) (k c0) = false := by
          cases hb : R (k x) (k c0)
          · rfl
          · exact absurd hb hR
        have hcur : pickStep R k (some c0) x = some c0 := by
          simp [pickStep, hR']
        rw [hcur] at h
        obtain ⟨h1, h2, h3⟩ := ih (some c0) r h
        have hc0r : R (k c0) (k r) = false := h3 c0 rfl
        refine ⟨?_, ?_, ?_⟩
        · rcases h1 with h1 | h1
          · exact Or.inl h1
          · exact Or.inr (List.mem_cons_of_mem _ h1)
        · intro q hq
          rcases List.mem_cons.mp hq with rfl | hq
          · exact hneg (k q) (k c0) (k r) hR' hc0r
          · exact h2 q hq
        · intro c hc
          rw [← Option.some.inj hc]
          exact hc0r

/-- With pairwise distinct keys, the champion of a first-winner fold is
permutation-invariant. -/
theorem pickFold_perm_eq (R : Nat → Nat → Bool) (k : α → Nat)
    (hirr : ∀ a, R a a = false)
    (hneg : ∀ a b c, R a b = false → R b c = false → R a c = false)
    (hmix : ∀ a b c, R a b = true → R a c = false → R b c = false)
    (htie : ∀ a b : Nat, R a b = false → R b a = false → a = b)
    (l l' : List α) (hperm : l.Perm l') (hnd : (l.map k).Nodup) :
    List.foldl (pickStep R k) none l = List.foldl (pickStep R k) none l' := by
  cases hl : List.foldl (pickStep R k) none l with
  | none =>
    have h1 := (pickFold_none_iff R k l none).mp hl
    have h2 : l' = [] := by
      rw [h1.2] at hperm
      exact hperm.symm.eq_nil
    rw [h2]
    rfl
  | some r =>
    cases hl' : List.foldl (pickStep R k) none l' with
    | none =>
      have h1 := (pickFold_none_iff R k l' none).mp hl'
      rw [h1.2] at hperm
      rw [hperm.eq_nil] at hl
      simp at hl
    | some r' =>
      obtain ⟨hmem, hall, _⟩ := pickFold_spec R k hirr hneg hmix l none r hl
      obtain ⟨hmem', hall', _⟩ := pickFold_spec R k hirr hneg hmix l' none r' hl'
      have hrl : r ∈ l := by
        rcases hmem with h | h
        · simp at h
        · exact h
      have hr'l' : r' ∈ l' := by
        rcases hmem' with h | h
        · simp at h
        · exact h
      have hr'l : r' ∈ l := hperm.symm.subset hr'l'
      have hrl' : r ∈ l' := hperm.subset hrl
      have h1 : R (k r') (k r) = false := hall r' hr'l
      have h2 : R (k r) (k r') = false := hall' r hrl'
      have hk : k r' = k r := htie (k r') (k r) h1 h2
      have : r' = r := List.inj_on_of_nodup_map hnd hr'l hrl hk
      rw [this]

attribute [ext] PlayerStat

theorem reset_user (ps : PlayerStat) : ps.reset.user = ps.user := rfl

theorem reset_bestPair (ps : PlayerStat) : ps.reset.bestPair = none := rfl

theorem reset_worstPair (ps : PlayerStat) : ps.reset.worstPair = none := rfl

/-- C1, amended core: replaying the queryset in any order permuting the
completion-ordered history gives the same numeric aggregate; the
best/worst/fastest references also agree when sip totals and chug
durations are tie-free. -/
theorem recalculate_vs_completion_order
    (ps : PlayerStat) (hist gs' : List GameRec) (lo hi : ℚ)
    (hperm : hist.Perm (recalcQueryset lo hi gs'))
    (hwf : ∀ g ∈ hist, (g.findGP ps.user).isSome) :
    ∃ r r', ps.recalculate gs' lo hi = some r ∧
      hist.foldlM PlayerStat.update_from_new_game ps.reset = some r' ∧
      r.user = r'.user ∧ r.season_number = r'.season_number ∧
      r.total_games = r'.total_games ∧
      r.total_time_played_seconds = r'.total_time_played_seconds ∧
      r.total_sips = r'.total_sips ∧
      r.best_game_sips = r'.best_game_sips ∧
      r.worst_game_sips = r'.worst_game_sips ∧
      r.total_chugs = r'.total_chugs ∧
      r.fastest_chug.map (fun ch => ch.duration_ms) =
        r'.fastest_chug.map (fun ch => ch.duration_ms) ∧
      r.average_chug_time_seconds = r'.average_chug_time_seconds ∧
      (((qualSummaries ps.user hist).map (fun m => m.sips)).Nodup →
        (((qualSummaries ps.user hist).flatMap (fun m => m.chugs)).map
          (fun ch => ch.duration_ms)).Nodup →
        r = r') := by
  have hQsub : ∀ g ∈ recalcQueryset lo hi gs', g ∈ hist :=
    fun g hg => hperm.symm.subset hg
  have hwfQ : ∀ g ∈ recalcQueryset lo hi gs',
      g.official = true → g.dnf = false → (g.findGP ps.user).isSome :=
    fun g hg _ _ => hwf g (hQsub g hg)
  have hwfH : ∀ g ∈ hist,
      g.official = true → g.dnf = false → (g.findGP ps.user).isSome :=
    fun g hg _ _ => hwf g hg
  have hA := foldlM_update_eq ps.user (recalcQueryset lo hi gs') ps.reset
    (reset_user ps) hwfQ
  have hB := foldlM_update_eq ps.user hist ps.reset (reset_user ps) hwfH
  set u := ps.user
  set msH := qualSummaries u hist with hmsH
  set msQ := qualSummaries u (recalcQueryset lo hi gs') with hmsQ
  have hpermS : msH.Perm msQ := (hperm.filter (qualifies u)).map (gameSummary u)
  set rA := List.foldl specStep ps.reset msQ with hrA
  set rB := List.foldl specStep ps.reset msH with hrB
  have hgoodA : GoodStat rA := foldl_specStep_good msQ ps.reset (reset_good ps)
  have hgoodB : GoodStat rB := foldl_specStep_good msH ps.reset (reset_good ps)
  have hnum : rA.numOf = rB.numOf := by
    rw [hrA, hrB, foldl_specStep_numOf msQ ps.reset (reset_good ps),
      foldl_specStep_numOf msH ps.reset (reset_good ps)]
    exact (hpermS.foldl_eq'
      (fun x _ y _ z => addS_comm z x y) ps.reset.numOf).symm
  refine ⟨rA, rB, ?_, ?_, ?_, ?_, ?_, ?_, ?_, ?_, ?_, ?_, ?_, ?_, ?_⟩
  · unfold PlayerStat.recalculate
    exact hA
  · exact hB
  · rw [hrA, hrB, foldl_specStep_user, foldl_specStep_user]
  · rw [hrA, hrB, foldl_specStep_season, foldl_specStep_season]
  · exact congrArg NumView.games hnum
  · exact congrArg NumView.time hnum
  · exact congrArg NumView.sips hnum
  · exact congrArg NumView.bestS hnum
  · exact congrArg NumView.worstS hnum
  · exact congrArg NumView.chugs hnum
  · exact congrArg NumView.fastMs hnum
  · have hch : rA.total_chugs = rB.total_chugs := congrArg NumView.chugs hnum
    have hct : rA.reconChugTime = rB.reconChugTime := congrArg NumView.ctime hnum
    rw [avg_of_good rA hgoodA, avg_of_good rB hgoodB, hch, hct]
  · intro hnd1 hnd2
    have hbpair : rA.bestPair = rB.bestPair := by
      rw [hrA, hrB, foldl_specStep_bestPair msQ ps.reset (reset_good ps),
        foldl_specStep_bestPair msH ps.reset (reset_good ps),
        reset_bestPair, bstep_eq_pick]
      refine (pickFold_perm_eq _ _ ?_ ?_ ?_ ?_ _ _
        (hpermS.map (fun m => (m.gid, m.sips))) ?_).symm
      · intro a; simp
      · intro a b c h1 h2
        simp only [decide_eq_false_iff_not] at *
        omega
      · intro a b c h1 h2
        simp only [decide_eq_true_eq, decide_eq_false_iff_not] at *
        omega
      · intro a b h1 h2
        simp only [decide_eq_false_iff_not] at *
        omega
      · simpa [List.map_map, Function.comp] using hnd1
    have hwpair : rA.worstPair = rB.worstPair := by
      rw [hrA, hrB, foldl_specStep_worstPair msQ ps.reset (reset_good ps),
        foldl_specStep_worstPair msH ps.reset (reset_good ps),
        reset_worstPair, wstep_eq_pick]
      refine (pickFold_perm_eq _ _ ?_ ?_ ?_ ?_ _ _
        (hpermS.map (fun m => (m.gid, m.sips))) ?_).symm
      · intro a; simp
      · intro a b c h1 h2
        simp only [decide_eq_false_iff_not] at *
        omega
      · intro a b c h1 h2
        simp only [decide_eq_true_eq, decide_eq_false_iff_not] at *
        omega
      · intro a b h1 h2
        simp only [decide_eq_false_iff_not] at *
        omega
      · simpa [List.map_map, Function.comp] using hnd1
    have hfast : rA.fastest_chug = rB.fastest_chug := by
      rw [hrA, hrB, foldl_specStep_fastest, foldl_specStep_fastest]
      show List.foldl minChug ps.reset.fastest_chug _ =
        List.foldl minChug ps.reset.fastest_chug _
      have hres : ps.reset.fastest_chug = none := rfl
      rw [hres, minChug_eq_pick]
      refine (pickFold_perm_eq _ _ ?_ ?_ ?_ ?_ _ _
        (hpermS.flatMap_right (fun m => m.chugs)) ?_).symm
      · intro a; simp
      · intro a b c h1 h2
        simp only [decide_eq_false_iff_not] at *
        omega
      · intro a b c h1 h2
        simp only [decide_eq_true_eq, decide_eq_false_iff_not] at *
        omega
      · intro a b h1 h2
        simp only [decide_eq_false_iff_not] at *
        omega
      · exact hnd2
    have hch : rA.total_chugs = rB.total_chugs := congrArg NumView.chugs hnum
    have hct : rA.reconChugTime = rB.reconChugTime := congrArg NumView.ctime hnum
    apply PlayerStat.ext
    · rw [hrA, hrB, foldl_specStep_user, foldl_specStep_user]
    · rw [hrA, hrB, foldl_specStep_season, foldl_specStep_season]
    · exact congrArg NumView.games hnum
    · exact congrArg NumView.time hnum
    · exact congrArg NumView.sips hnum
    · rw [(bestPair_fst rA hgoodA).1, (bestPair_fst rB hgoodB).1, hbpair]
    · rw [(worstPair_fst rA hgoodA).1, (worstPair_fst rB hgoodB).1, hwpair]
    · exact congrArg NumView.bestS hnum
    · exact congrArg NumView.worstS hnum
    · exact hch
    · exact hfast
    · rw [avg_of_good rA hgoodA, avg_of_good rB hgoodB, hch, hct]

/-! ## Persistence trace of `recalculate` -/

/-- The saves of a replay over an all-viable list equal the prefix folds of
the qualifying games' summaries: the k-th persisted state is the reset
record with the first k qualifying games applied. -/
theorem replaySaves_scan (u : UserId) :
    ∀ (gs : List GameRec) (s : PlayerStat), s.user = u →
      (∀ g ∈ gs, g.official = true → g.dnf = false → (g.findGP u).isSome) →
      replaySaves u s gs =
        (List.range (qualSummaries u gs).length).map
          (fun k => List.foldl specStep s ((qualSummaries u gs).take (k + 1))) := by
  intro gs
  induction gs with
  | nil =>
    intro s _ _
    simp [replaySaves, qualSummaries]
  | cons g gs ih =>
    intro s hu hwf
    have hwf' : ∀ g' ∈ gs, g'.official = true → g'.dnf = false →
        (g'.findGP u).isSome :=
      fun g' hg' ho hd => hwf g' (List.mem_cons_of_mem _ hg') ho hd
    have hstep : replaySaves u s (g :: gs) =
        match s.update_from_new_game g with
        | none => []
        | some s' => if qualifies u g = true then s' :: replaySaves u s' gs
                     else replaySaves u s' gs := rfl
    by_cases hq : qualifies u g = true
    · cases hf : g.findGP u with
      | none =>
        exfalso
        unfold qualifies at hq
        rw [hf] at hq
        simp at hq
      | some gp =>
        have hq2 := hq
        unfold qualifies at hq2
        rw [hf] at hq2
        simp only [Bool.and_eq_true, Bool.not_eq_true'] at hq2
        obtain ⟨⟨hoff, hdnf⟩, hgp⟩ := hq2
        have hupd := update_qualifying s g gp hoff hdnf (hu ▸ hf) hgp
        rw [hu] at hupd
        have hqs : qualSummaries u (g :: gs) =
            gameSummary u g :: qualSummaries u gs := by
          unfold qualSummaries
          rw [List.filter_cons_of_pos (by simp [hq])]
          rfl
        rw [hstep, hupd]
        simp only [hq, if_pos]
        rw [ih (specStep s (gameSummary u g)) (by rw [specStep_user, hu]) hwf',
          hqs]
        rw [List.length_cons, List.range_succ_eq_map, List.map_cons,
          List.map_map]
        congr 1
    · have hq' : qualifies u g = false := by
        cases h : qualifies u g
        · rfl
        · exact absurd h hq
      have hqs : qualSummaries u (g :: gs) = qualSummaries u gs := by
        unfold qualSummaries
        rw [List.filter_cons_of_neg (by simp [hq'])]
      have hupd : s.update_from_new_game g = some s := by
        by_cases hoff : g.official = true
        · by_cases hdnf : g.dnf = false
          · cases hf : g.findGP u with
            | none =>
              have hs := hwf g (List.mem_cons_self _ _) hoff hdnf
              rw [hf] at hs
              simp at hs
            | some gp =>
              have hgp : gp.dnf = true := by
                unfold qualifies at hq'
                rw [hf, hoff, hdnf] at hq'
                simp at hq'
                exact hq'
              exact update_noop_player_dnf s g gp hoff hdnf (hu ▸ hf) hgp
          · have hd : g.dnf = true := by
              cases h : g.dnf
              · exact absurd h hdnf
              · rfl
            exact update_noop_unofficial s g (Or.inr hd)
        · have ho : g.official = false := by
            cases h : g.official
            · rfl
            · exact absurd h hoff
          exact update_noop_unofficial s g (Or.inl ho)
      rw [hstep, hupd]
      simp only [hq', Bool.false_eq_true, if_false]
      rw [ih s hu hwf', hqs]

/-! ## Concrete fixtures used by the counterexamples and witnesses -/

def psFresh : PlayerStat :=
  { user := 0, season_number := 0, total_games := 0,
    total_time_played_seconds := 0, total_sips := 0, best_game := none,
    worst_game := none, best_game_sips := none, worst_game_sips := none,
    total_chugs := 0, fastest_chug := none, average_chug_time_seconds := none }

/-- A two-player finished official game, the tracked player (user 0) at
seat 1, no cards. -/
def gC1a : GameRec :=
  { id := 1, official := true, dnf := false, start_dt := some 0,
    end_dt := some 100, sips_per_beer := 14,
    gameplayers := [⟨1, 0, false⟩, ⟨0, 1, false⟩], cards := [] }

/-- Finished later than `gC1a`, the tracked player at seat 0, no cards:
both games give the player 0 sips, so best/worst-game selection ties. -/
def gC1b : GameRec :=
  { id := 2, official := true, dnf := false, start_dt := some 0,
    end_dt := some 200, sips_per_beer := 14,
    gameplayers := [⟨0, 0, false⟩, ⟨1, 1, false⟩], cards := [] }

/-- Completion order as a Bool chain on end times. -/
def sortedByEnd : List GameRec → Bool
  | [] => true
  | [_] => true
  | a :: b :: rest =>
    decide (a.end_dt.getD 0 ≤ b.end_dt.getD 0) && sortedByEnd (b :: rest)

/-- The gameplayer queryset order: by the player's seat position
(`GamePlayer.Meta.ordering`, by position). -/
def sortedByPos (u : UserId) : List GameRec → Bool
  | [] => true
  | [_] => true
  | a :: b :: rest =>
    decide (gamePos u a ≤ gamePos u b) && sortedByPos u (b :: rest)

/-- A record with prior aggregate state (for the atomicity counterexample). -/
def psC2 : PlayerStat :=
  { user := 0, season_number := 0, total_games := 5,
    total_time_played_seconds := 500, total_sips := 50, best_game := some 9,
    worst_game := some 9, best_game_sips := some 50, worst_game_sips := some 50,
    total_chugs := 0, fastest_chug := none, average_chug_time_seconds := none }

def gC2a : GameRec :=
  { id := 11, official := true, dnf := false, start_dt := some 0,
    end_dt := some 100, sips_per_beer := 14,
    gameplayers := [⟨0, 0, false⟩], cards := [] }

def gC2b : GameRec :=
  { id := 12, official := true, dnf := false, start_dt := some 0,
    end_dt := some 200, sips_per_beer := 14,
    gameplayers := [⟨0, 0, false⟩], cards := [] }

/-- An official, non-DNF game that is still live (no end time). -/
def gLiveC3 : GameRec :=
  { id := 3, official := true, dnf := false, start_dt := some 0,
    end_dt := none, sips_per_beer := 14,
    gameplayers := [⟨0, 0, false⟩], cards := [] }

/-- A finished official game in which the player personally DNF'd. -/
def gPdnfC3 : GameRec :=
  { id := 4, official := true, dnf := false, start_dt := some 0,
    end_dt := some 100, sips_per_beer := 14,
    gameplayers := [⟨0, 0, true⟩], cards := [] }

/-! ## Claim theorems: the aggregator -/

/-- C1 counterexample: a history of two finished official games that tie
on the player's sip total (both 0).  In completion order the incremental
path records game 1 as `best_game`; `recalculate`, which replays the
gameplayer queryset in seat-position order, records game 2.  So the claim
that recalculate() equals the completion-order fold field for field is
false as stated. -/
theorem C1_counterexample :
    [gC1a, gC1b].Perm [gC1b, gC1a] ∧
    sortedByEnd [gC1a, gC1b] = true ∧
    sortedByPos 0 [gC1b, gC1a] = true ∧
    recalcQueryset 0 1000 [gC1b, gC1a] = [gC1b, gC1a] ∧
    psFresh.recalculate [gC1b, gC1a] 0 1000 ≠
      [gC1a, gC1b].foldlM PlayerStat.update_from_new_game psFresh.reset ∧
    (psFresh.recalculate [gC1b, gC1a] 0 1000).map (fun r => r.best_game) =
      some (some 2) ∧
    ([gC1a, gC1b].foldlM PlayerStat.update_from_new_game psFresh.reset).map
      (fun r => r.best_game) = some (some 1) := by
  have h1 : (psFresh.recalculate [gC1b, gC1a] 0 1000).map
      (fun r => r.best_game) = some (some 2) := by decide
  have h2 : ([gC1a, gC1b].foldlM PlayerStat.update_from_new_game
      psFresh.reset).map (fun r => r.best_game) = some (some 1) := by decide
  refine ⟨by decide, by decide, by decide, by decide, ?_, h1, h2⟩
  intro h
  rw [h] at h1
  rw [h1] at h2
  simp at h2

/-- C1 witness: the amended equivalence applied to the concrete tied
two-game history. -/
theorem C1_witness :
    ∃ r r', psFresh.recalculate [gC1b, gC1a] 0 1000 = some r ∧
      [gC1a, gC1b].foldlM PlayerStat.update_from_new_game psFresh.reset =
        some r' ∧
      r.user = r'.user ∧ r.season_number = r'.season_number ∧
      r.total_games = r'.total_games ∧
      r.total_time_played_seconds = r'.total_time_played_seconds ∧
      r.total_sips = r'.total_sips ∧
      r.best_game_sips = r'.best_game_sips ∧
      r.worst_game_sips = r'.worst_game_sips ∧
      r.total_chugs = r'.total_chugs ∧
      r.fastest_chug.map (fun ch => ch.duration_ms) =
        r'.fastest_chug.map (fun ch => ch.duration_ms) ∧
      r.average_chug_time_seconds = r'.average_chug_time_seconds ∧
      (((qualSummaries psFresh.user [gC1a, gC1b]).map (fun m => m.sips)).Nodup →
        (((qualSummaries psFresh.user [gC1a, gC1b]).flatMap
            (fun m => m.chugs)).map (fun ch => ch.duration_ms)).Nodup →
        r = r') :=
  recalculate_vs_completion_order psFresh [gC1a, gC1b] [gC1b, gC1a] 0 1000
    (by decide) (by decide)

/-- C2, amended: `recalculate()` is not atomic.  `update_from_new_game`
saves once per qualifying replayed game and the early returns skip the
save, so the persisted states of one recalculation are exactly the prefix
folds of the qualifying games over the reset record — one intermediate
state per qualifying game — and with zero qualifying games nothing is
persisted at all (the reset never reaches the store). -/
theorem C2_recalculate_persistence
    (ps : PlayerStat) (gs : List GameRec) (lo hi : ℚ)
    (hwf : ∀ g ∈ recalcQueryset lo hi gs, (g.findGP ps.user).isSome) :
    ps.recalcSaves gs lo hi =
      (List.range (qualSummaries ps.user (recalcQueryset lo hi gs)).length).map
        (fun k => List.foldl specStep ps.reset
          ((qualSummaries ps.user (recalcQueryset lo hi gs)).take (k + 1))) ∧
    (qualSummaries ps.user (recalcQueryset lo hi gs) = [] →
      ps.recalcSaves gs lo hi = []) := by
  have hwf' : ∀ g ∈ recalcQueryset lo hi gs,
      g.official = true → g.dnf = false → (g.findGP ps.user).isSome :=
    fun g hg _ _ => hwf g hg
  have h := replaySaves_scan ps.user (recalcQueryset lo hi gs) ps.reset
    (reset_user ps) hwf'
  have hdef : ps.recalcSaves gs lo hi =
      replaySaves ps.user ps.reset (recalcQueryset lo hi gs) := rfl
  refine ⟨by rw [hdef, h], ?_⟩
  intro h0
  rw [hdef, h, h0]
  rfl

/-- C2 witness: the persistence trace of a concrete two-game
recalculation. -/
theorem C2_witness :
    psC2.recalcSaves [gC2a, gC2b] 0 1000 =
      (List.range
        (qualSummaries psC2.user (recalcQueryset 0 1000 [gC2a, gC2b])).length).map
        (fun k => List.foldl specStep psC2.reset
          ((qualSummaries psC2.user
            (recalcQueryset 0 1000 [gC2a, gC2b])).take (k + 1))) ∧
    (qualSummaries psC2.user (recalcQueryset 0 1000 [gC2a, gC2b]) = [] →
      psC2.recalcSaves [gC2a, gC2b] 0 1000 = []) :=
  C2_recalculate_persistence psC2 [gC2a, gC2b] 0 1000 (by decide)

/-- C2 counterexample: with prior state and two qualifying games, some
persisted state differs from both the pre-recalculation record and the
final recomputed record. -/
theorem C2_counterexample :
    ∃ x ∈ psC2.recalcSaves [gC2a, gC2b] 0 1000,
      x ≠ psC2 ∧ some x ≠ psC2.recalculate [gC2a, gC2b] 0 1000 := by
  decide

/-- C3, amended: `update_from_new_game` is a no-op when the game is
unofficial, game-DNF, or the player's gameplayer row has `dnf=True`; a
missing gameplayer row raises instead.  Whether the game is finished is
not checked (see the counterexample: a live official game is folded in). -/
theorem C3_update_noop_conditions (ps : PlayerStat) (g : GameRec) :
    (g.official = false ∨ g.dnf = true → ps.update_from_new_game g = some ps) ∧
    (∀ gp, g.findGP ps.user = some gp → gp.dnf = true →
      ps.update_from_new_game g = some ps) ∧
    (g.official = true → g.dnf = false → g.findGP ps.user = none →
      ps.update_from_new_game g = none) := by
  refine ⟨fun h => update_noop_unofficial ps g h, ?_,
    fun ho hd hn => update_missing_gp ps g ho hd hn⟩
  intro gp hfind hgp
  by_cases hoff : g.official = true
  · by_cases hdnf : g.dnf = false
    · exact update_noop_player_dnf ps g gp hoff hdnf hfind hgp
    · refine update_noop_unofficial ps g (Or.inr ?_)
      cases h : g.dnf
      · exact absurd h hdnf
      · rfl
  · refine update_noop_unofficial ps g (Or.inl ?_)
    cases h : g.official
    · rfl
    · exact absurd h hoff

/-- C3 witness: a finished official game in which the player personally
DNF'd leaves the record untouched. -/
theorem C3_witness :
    psFresh.update_from_new_game gPdnfC3 = some psFresh :=
  (C3_update_noop_conditions psFresh gPdnfC3).2.1 ⟨0, 0, true⟩ rfl rfl

/-- C3 counterexample: a live (no end time) official non-DNF game is not
a no-op — the function never checks that the game is finished. -/
theorem C3_counterexample :
    gLiveC3.is_completed = false ∧ gLiveC3.official = true ∧
    gLiveC3.dnf = false ∧
    psFresh.update_from_new_game gLiveC3 ≠ some psFresh ∧
    (psFresh.update_from_new_game gLiveC3).map (fun r => r.total_games) =
      some 1 := by
  decide

/-- C8: a recalculation over a queryset with no qualifying games (here:
every game in the window has the player's gameplayer row marked DNF)
returns the record with every aggregate field at its default, raising
nothing. -/
theorem C8_zero_qualifying_yields_defaults
    (ps : PlayerStat) (gs : List GameRec) (lo hi : ℚ)
    (hnq : ∀ g ∈ recalcQueryset lo hi gs, qualifies ps.user g = false)
    (hwf : ∀ g ∈ recalcQueryset lo hi gs, (g.findGP ps.user).isSome) :
    ps.recalculate gs lo hi = some ps.reset ∧
    ps.reset.total_games = 0 ∧ ps.reset.total_sips = 0 ∧
    ps.reset.total_chugs = 0 ∧ ps.reset.total_time_played_seconds = 0 ∧
    ps.reset.best_game = none ∧ ps.reset.worst_game = none ∧
    ps.reset.best_game_sips = none ∧ ps.reset.worst_game_sips = none ∧
    ps.reset.fastest_chug = none ∧
    ps.reset.average_chug_time_seconds = none := by
  have hwf' : ∀ g ∈ recalcQueryset lo hi gs,
      g.official = true → g.dnf = false → (g.findGP ps.user).isSome :=
    fun g hg _ _ => hwf g hg
  have h := foldlM_update_eq ps.user (recalcQueryset lo hi gs) ps.reset
    (reset_user ps) hwf'
  have hq : qualSummaries ps.user (recalcQueryset lo hi gs) = [] := by
    unfold qualSummaries
    rw [List.filter_eq_nil_iff.mpr (by simpa using hnq)]
    rfl
  refine ⟨?_, rfl, rfl, rfl, rfl, rfl, rfl, rfl, rfl, rfl, rfl⟩
  unfold PlayerStat.recalculate
  rw [h, hq]
  rfl

/-- C8 witness: one finished official game where the player DNF'd
personally; the recalculation yields the all-default record. -/
theorem C8_witness :
    psC2.recalculate [gPdnfC3] 0 1000 = some psC2.reset ∧
    psC2.reset.total_games = 0 ∧ psC2.reset.total_sips = 0 ∧
    psC2.reset.total_chugs = 0 ∧ psC2.reset.total_time_played_seconds = 0 ∧
    psC2.reset.best_game = none ∧ psC2.reset.worst_game = none ∧
    psC2.reset.best_game_sips = none ∧ psC2.reset.worst_game_sips = none ∧
    psC2.reset.fastest_chug = none ∧
    psC2.reset.average_chug_time_seconds = none :=
  C8_zero_qualifying_yields_defaults psC2 [gPdnfC3] 0 1000
    (by decide) (by decide)

/-! ## Claim theorems: achievements, distribution, card ownership -/

/-- C10: `Top10Achievement.has_achieved` is extensionally equal to
`DNFAchievement.has_achieved` — both test for a gameplayer row with
`dnf=True` in a non-DNF game with an end time; no sip totals or rankings
are consulted, despite its description, Placed top 10 total sips in a season. -/
theorem C10_top10_equals_dnf (rows : List GPJoin) :
    Top10Achievement.has_achieved rows = DNFAchievement.has_achieved rows ∧
    (Top10Achievement.has_achieved rows = true ↔
      ∃ r ∈ rows, r.dnf = true ∧ r.game_dnf = false ∧ r.game_end.isSome) := by
  refine ⟨rfl, ?_⟩
  unfold Top10Achievement.has_achieved
  rw [List.any_eq_true]
  constructor
  · rintro ⟨r, hr, hp⟩
    simp only [Bool.and_eq_true, Bool.not_eq_true'] at hp
    exact ⟨r, hr, hp.1.1, hp.1.2, hp.2⟩
  · rintro ⟨r, hr, h1, h2, h3⟩
    exact ⟨r, hr, by simp [h1, h2, h3]⟩

/-- C9: `chug_count_distribution(p)` is the exact hypergeometric pmf with
population `13p`, `p` success states and `13` draws; at `p = 4` the
probability of exactly one Ace among a player's 13 cards is the
closed-form value `C(4,1)·C(48,12)/C(52,13)`. -/
theorem C9_chug_distribution_hypergeometric :
    (∀ p k, chug_count_distribution p k =
      ((Nat.choose p k : ℚ) * (Nat.choose (13 * p - p) (13 - k) : ℚ)) /
        (Nat.choose (13 * p) 13 : ℚ)) ∧
    chug_count_distribution 4 1 =
      (4 * 69668534468 : ℚ) / 635013559600 := by
  constructor
  · intro p k
    rfl
  · have h1 : Nat.choose 52 13 = 635013559600 := by
      rw [Nat.choose_eq_descFactorial_div_factorial]
      decide
    have h2 : Nat.choose 48 12 = 69668534468 := by
      rw [Nat.choose_eq_descFactorial_div_factorial]
      decide
    have h3 : Nat.choose 4 1 = 4 := by decide
    show hypergeom_pmf (13 * 4) 4 13 1 = _
    unfold hypergeom_pmf
    norm_num [h1, h2, h3]

/-- C5: round-robin ownership.  The `drawn_by` derivation in `Card.save`
indeed picks the player seated at `index mod p`; but the `drawn_by_2`
derivation calls `self.ordered_gameplayers()`, a method that exists on
`Game` and not on `Card`, so every save of a card without a preset
`drawn_by` raises `AttributeError` — as would the repository's own test
fixtures, which create cards without `drawn_by`. -/
theorem C5_card_save_attribute_error :
    Card.save_drawn_by gC1a 0 = some 1 ∧
    Card.save_drawn_by gC1a 1 = some 0 ∧
    Card.save_drawn_by gC1a 2 = some 1 ∧
    Card.save_drawn_by gC1a 3 = some 0 ∧
    Card.save_derive gC1a 0 = Except.error ("AttributeError") ∧
    (∀ g : GameRec, ∀ index : Nat,
      Card.save_derive g index ≠ Except.ok (0, ⟨0, 0, false⟩)) := by
  refine ⟨by decide, by decide, by decide, by decide, rfl, ?_⟩
  intro g index h
  unfold Card.save_derive at h
  cases hf : Card.save_drawn_by g index with
  | none => rw [hf] at h; simp at h
  | some u => rw [hf] at h; simp [Card.save_drawn_by_2] at h

/-! ## Deck lemmas -/

theorem cons_eraseIdx_perm :
    ∀ (l : List α) (i : Nat) (h : i < l.length),
      (l.get ⟨i, h⟩ :: l.eraseIdx i).Perm l := by
  intro l
  induction l with
  | nil =>
    intro i h
    simp at h
  | cons x xs ih =>
    intro i h
    cases i with
    | zero => simp
    | succ i =>
      have hi : i < xs.length := by simpa using h
      have h1 : ((x :: xs).get ⟨i + 1, h⟩ :: (x :: xs).eraseIdx (i + 1)) =
          xs.get ⟨i, hi⟩ :: x :: xs.eraseIdx i := rfl
      rw [h1]
      exact ((List.Perm.swap x (xs.get ⟨i, hi⟩) (xs.eraseIdx i)).trans
        ((ih i hi).cons x))

theorem shuffleGo_perm :
    ∀ (n : Nat) (l : List α), l.length = n → ∀ s, (shuffleGo s l).Perm l := by
  intro n
  induction n using Nat.strong_induction_on with
  | _ n ih =>
    intro l hl s
    cases l with
    | nil => simp [shuffleGo]
    | cons x xs =>
      rw [shuffleGo]
      have hi : s % (x :: xs).length < (x :: xs).length :=
        Nat.mod_lt _ (by simp)
      have hgetD : (x :: xs).getD (s % (x :: xs).length) x =
          (x :: xs).get ⟨s % (x :: xs).length, hi⟩ := by
        rw [List.getD_eq_getElem _ _ hi]
        simp
      have hlen : ((x :: xs).eraseIdx (s % (x :: xs).length)).length <
          n := by
        rw [List.length_eraseIdx_of_lt hi]
        omega
      have hrec := ih _ hlen ((x :: xs).eraseIdx (s % (x :: xs).length)) rfl
        (lcgNext s)
      rw [hgetD]
      exact ((hrec.cons _).trans (cons_eraseIdx_perm (x :: xs) _ hi))

theorem mem_ordered_deck (p : Nat) (v : Nat) (s : Char) :
    (v, s) ∈ Card.get_ordered_cards_for_players p ↔
      (2 ≤ v ∧ v ≤ 14 ∧ s ∈ Card.SUITS.take p) := by
  unfold Card.get_ordered_cards_for_players
  rw [List.mem_flatMap]
  constructor
  · rintro ⟨st, hst, hmem⟩
    rw [List.mem_map] at hmem
    obtain ⟨v', hv', heq⟩ := hmem
    cases heq
    refine ⟨?_, ?_, hst⟩ <;> (fin_cases hv' <;> omega)
  · rintro ⟨h2, h14, hs⟩
    refine ⟨s, hs, ?_⟩
    rw [List.mem_map]
    refine ⟨v, ?_, rfl⟩
    unfold Card.VALUES
    interval_cases v <;> simp

/-- C6: for every player count 1 ≤ p ≤ 6 and every seed, the ordered deck
has exactly `13p` distinct (value, suit) pairs — the values 2..14 once in
each of the first `p` suits — and the shuffled deck is a permutation of
it; two calls with the same player count and seed coincide.  (The shuffle
itself is modelled from the spec, `games/seed.py` being absent from the
sources.) -/
theorem C6_deck_integrity (p seed : Nat) (h1 : 1 ≤ p) (h6 : p ≤ 6) :
    (Card.get_shuffled_deck p seed).Perm (Card.get_ordered_cards_for_players p) ∧
    (Card.get_ordered_cards_for_players p).length = 13 * p ∧
    (Card.get_ordered_cards_for_players p).Nodup ∧
    (∀ v s, (v, s) ∈ Card.get_ordered_cards_for_players p ↔
      (2 ≤ v ∧ v ≤ 14 ∧ s ∈ Card.SUITS.take p)) ∧
    (Card.get_shuffled_deck p seed).length = 13 * p ∧
    (Card.get_shuffled_deck p seed).Nodup ∧
    (∀ seed₂, seed₂ = seed →
      Card.get_shuffled_deck p seed₂ = Card.get_shuffled_deck p seed) := by
  have hperm : (Card.get_shuffled_deck p seed).Perm
      (Card.get_ordered_cards_for_players p) :=
    shuffleGo_perm (Card.get_ordered_cards_for_players p).length _ rfl _
  have hlen : (Card.get_ordered_cards_for_players p).length = 13 * p := by
    interval_cases p <;> decide
  have hnd : (Card.get_ordered_cards_for_players p).Nodup := by
    interval_cases p <;> decide
  refine ⟨hperm, hlen, hnd, fun v s => mem_ordered_deck p v s, ?_, ?_, ?_⟩
  · rw [hperm.length_eq, hlen]
  · exact hperm.nodup_iff.mpr hnd
  · intro seed₂ h
    rw [h]

/-- C6 witness: the four-player deck with a concrete seed. -/
theorem C6_witness :
    (Card.get_shuffled_deck 4 123).Perm (Card.get_ordered_cards_for_players 4) ∧
    (Card.get_ordered_cards_for_players 4).length = 13 * 4 ∧
    (Card.get_ordered_cards_for_players 4).Nodup ∧
    (∀ v s, (v, s) ∈ Card.get_ordered_cards_for_players 4 ↔
      (2 ≤ v ∧ v ≤ 14 ∧ s ∈ Card.SUITS.take 4)) ∧
    (Card.get_shuffled_deck 4 123).length = 13 * 4 ∧
    (Card.get_shuffled_deck 4 123).Nodup ∧
    (∀ seed₂, seed₂ = 123 →
      Card.get_shuffled_deck 4 seed₂ = Card.get_shuffled_deck 4 123) :=
  C6_deck_integrity 4 123 (by decide) (by decide)

/-! ## Per-seat loop characterizations for `get_player_stats` -/

theorem listBumpN_getD (ts : List Nat) (j i v : Nat) (hj : j < ts.length)
    (hi : i < ts.length) :
    (listBumpN ts j v).getD i 0 =
      if j = i then ts.getD i 0 + v else ts.getD i 0 := by
  unfold listBumpN
  by_cases h : j = i
  · subst h
    rw [if_pos rfl, List.getD_eq_getElem _ _ (by simpa using hj)]
    simp
  · rw [if_neg h]
    by_cases hi' : i < ts.length
    · rw [List.getD_eq_getElem _ _ (by simpa using hi'),
        List.getD_eq_getElem _ _ hi']
      simp [List.getElem_set_ne h]
    · exact absurd hi hi'

theorem listBumpQ_getD (ts : List ℚ) (j i : Nat) (v : ℚ) (hj : j < ts.length)
    (hi : i < ts.length) :
    (listBumpQ ts j v).getD i 0 =
      if j = i then ts.getD i 0 + v else ts.getD i 0 := by
  unfold listBumpQ
  by_cases h : j = i
  · subst h
    rw [if_pos rfl, List.getD_eq_getElem _ _ (by simpa using hj)]
    simp
  · rw [if_neg h]
    rw [List.getD_eq_getElem _ _ (by simpa using hi),
      List.getD_eq_getElem _ _ hi]
    simp [List.getElem_set_ne h]

theorem listBumpN_length (ts : List Nat) (j v : Nat) :
    (listBumpN ts j v).length = ts.length := by
  unfold listBumpN
  simp

theorem listBumpQ_length (ts : List ℚ) (j : Nat) (v : ℚ) :
    (listBumpQ ts j v).length = ts.length := by
  unfold listBumpQ
  simp

theorem sipsLoop_sips (n : Nat) (hn : 0 < n) :
    ∀ (cs : List CardRec) (k : Nat) (ts td : List Nat)
      (ls : Option (Nat × Nat)) (i : Nat), i < n → ts.length = n →
      ((sipsLoop n k (ts, td, ls) cs).1).getD i 0 =
        ts.getD i 0 + ((seatCards n i k cs).map (fun c => c.value)).sum := by
  intro cs
  induction cs with
  | nil =>
    intro k ts td ls i hi hlen
    simp [sipsLoop, seatCards]
  | cons c cs ih =>
    intro k ts td ls i hi hlen
    have hj : k % n < ts.length := by
      rw [hlen]
      exact Nat.mod_lt _ hn
    have hi' : i < ts.length := by
      rw [hlen]
      exact hi
    show ((sipsLoop n (k + 1)
        (listBumpN ts (k % n) c.value, listBumpN td (k % n) 1,
          some (k % n, c.value)) cs).1).getD i 0 = _
    rw [ih (k + 1) _ _ _ i hi (by rw [listBumpN_length, hlen])]
    rw [listBumpN_getD ts (k % n) i c.value hj hi']
    have hsc : seatCards n i k (c :: cs) =
        if k % n = i then c :: seatCards n i (k + 1) cs
        else seatCards n i (k + 1) cs := rfl
    by_cases h : k % n = i
    · rw [if_pos h, hsc, if_pos h]
      simp [Nat.add_assoc]
    · rw [if_neg h, hsc, if_neg h]

theorem sipsLoop_last (n : Nat) :
    ∀ (cs : List CardRec) (k : Nat) (acc : List Nat × List Nat × Option (Nat × Nat)),
      (sipsLoop n k acc cs).2.2 =
        match cs.getLast? with
        | none => acc.2.2
        | some c => some ((k + cs.length - 1) % n, c.value) := by
  intro cs
  induction cs with
  | nil => intro k acc; rfl
  | cons c cs ih =>
    intro k acc
    show (sipsLoop n (k + 1) (_, _, some (k % n, c.value)) cs).2.2 = _
    rw [ih]
    cases cs with
    | nil => simp
    | cons c' cs' =>
      simp only [List.getLast?_cons_cons, List.length_cons]
      cases hg : (c' :: cs').getLast? with
      | none => simp at hg
      | some cl =>
        have h1 : k + 1 + (cs'.length + 1) - 1 = k + (cs'.length + 1 + 1) - 1 := by
          omega
        rw [h1]

theorem sipsLoop_fst_length (n : Nat) :
    ∀ (cs : List CardRec) (k : Nat) (acc : List Nat × List Nat × Option (Nat × Nat)),
      ((sipsLoop n k acc cs).1).length = acc.1.length := by
  intro cs
  induction cs with
  | nil => intro k acc; rfl
  | cons c cs ih =>
    intro k acc
    show ((sipsLoop n (k + 1) (listBumpN acc.1 (k % n) c.value, _, _) cs).1).length = _
    rw [ih, listBumpN_length]

theorem timesLoop_times (n : Nat) (hn : 0 < n) :
    ∀ (ds : List ℚ) (k : Nat) (tt : List ℚ) (td : List Nat) (i : Nat),
      i < n → tt.length = n →
      ((timesLoop n k (tt, td) ds).1).getD i 0 =
        tt.getD i 0 + (seatDurations n i k ds).sum := by
  intro ds
  induction ds with
  | nil =>
    intro k tt td i hi hlen
    simp [timesLoop, seatDurations]
  | cons d ds ih =>
    intro k tt td i hi hlen
    have hj : k % n < tt.length := by
      rw [hlen]
      exact Nat.mod_lt _ hn
    have hi' : i < tt.length := by
      rw [hlen]
      exact hi
    show ((timesLoop n (k + 1)
        (listBumpQ tt (k % n) d, listBumpN td (k % n) 1) ds).1).getD i 0 = _
    rw [ih (k + 1) _ _ i hi (by rw [listBumpQ_length, hlen])]
    rw [listBumpQ_getD tt (k % n) i d hj hi']
    have hsd : seatDurations n i k (d :: ds) =
        if k % n = i then d :: seatDurations n i (k + 1) ds
        else seatDurations n i (k + 1) ds := rfl
    by_cases h : k % n = i
    · rw [if_pos h, hsd, if_pos h]
      simp [add_assoc]
    · rw [if_neg h, hsd, if_neg h]

theorem timesLoop_fst_length (n : Nat) :
    ∀ (ds : List ℚ) (k : Nat) (tt : List ℚ) (td : List Nat),
      ((timesLoop n k (tt, td) ds).1).length = tt.length := by
  intro ds
  induction ds with
  | nil => intro k tt td; rfl
  | cons d ds ih =>
    intro k tt td
    show ((timesLoop n (k + 1) (listBumpQ tt (k % n) d, _) ds).1).length = _
    rw [ih, listBumpQ_length]

def pgsDefault : PlayerGameStat :=
  { total_sips := 0, sips_per_turn := none, full_beers := 0, extra_sips := 0,
    total_time := none, time_per_turn := none, time_per_sip := none }

theorem getD_map_range (n : Nat) (f : Nat → β) (i : Nat) (d : β) (hi : i < n) :
    ((List.range n).map f).getD i d = f i := by
  rw [List.getD_eq_getElem _ _ (by simpa using hi)]
  simp

theorem map_some_getD (l : List ℚ) (i : Nat) (hi : i < l.length) :
    (l.map some).getD i none = some (l.getD i 0) := by
  rw [List.getD_eq_getElem _ _ (by simpa using hi), List.getD_eq_getElem _ _ hi]
  simp

/-- C7: the `time_per_sip` of seat `i` in `get_player_stats`.  When the
game is live and seat `i` drew the most recent card, the divisor excludes
that card's value; otherwise (other seats, or a completed game) the full
sip total divides; the result is `None` when timing data is absent or the
divisor is zero. -/
theorem C7_time_per_sip (g : GameRec) (i : Nat) (hi : i < g.players_count) :
    ((g.get_player_stats).getD i pgsDefault).time_per_sip =
      (if g.start_dt.isNone then none
       else if g.ordered_cards ≠ [] ∧
           (g.ordered_cards.length - 1) % g.players_count = i ∧
           g.end_dt = none then
         div_or_none (specSeatTime g i)
           (some ((specSeatSips g i : ℚ) -
             ((g.ordered_cards.getLast?.map (fun c => (c.value : ℚ))).getD 0)))
       else div_or_none (specSeatTime g i) (some ((specSeatSips g i : ℚ)))) := by
  have hn : 0 < g.players_count := Nat.lt_of_le_of_lt (Nat.zero_le i) hi
  simp only [GameRec.get_player_stats]
  rw [getD_map_range _ _ i _ hi]
  dsimp only
  have hsips : ((sipsLoop g.players_count 0
      (List.replicate g.players_count 0, List.replicate g.players_count 0,
        none) g.ordered_cards).1).getD i 0 = specSeatSips g i := by
    rw [sipsLoop_sips g.players_count hn g.ordered_cards 0 _ _ _ i hi
      (by simp)]
    simp [specSeatSips]
  have hlast := sipsLoop_last g.players_count g.ordered_cards 0
    (List.replicate g.players_count 0, List.replicate g.players_count 0, none)
  have htimes : (if g.hasTiming then
        (((timesLoop g.players_count 0
          (List.replicate g.players_count 0, List.replicate g.players_count 0)
          g.get_turn_durations).1).map some)
      else List.replicate g.players_count none).getD i none =
      specSeatTime g i := by
    unfold specSeatTime
    by_cases ht : g.hasTiming
    · rw [if_pos ht, if_pos ht]
      have hlen : ((timesLoop g.players_count 0
          (List.replicate g.players_count 0, List.replicate g.players_count 0)
          g.get_turn_durations).1).length = g.players_count := by
        rw [timesLoop_fst_length]
        simp
      rw [map_some_getD _ i (by rw [hlen]; exact hi)]
      rw [timesLoop_times g.players_count hn g.get_turn_durations 0 _ _ i hi
        (by simp)]
      simp
    · rw [if_neg ht, if_neg ht]
      rw [List.getD_eq_getElem _ _ (by simpa using hi)]
      simp
  rw [hsips, hlast, htimes]
  by_cases hst : g.start_dt.isNone
  · rw [if_pos hst, if_pos hst]
  · rw [if_neg hst, if_neg hst]
    cases hgl : g.ordered_cards.getLast? with
    | none =>
      have hnil : g.ordered_cards = [] := by
        simpa using hgl
      simp only [hnil, ne_eq, not_true_eq_false, false_and, if_false]
      rfl
    | some c =>
      have hne : g.ordered_cards ≠ [] := by
        intro h
        rw [h] at hgl
        simp at hgl
      simp only [hgl, Nat.zero_add]
      by_cases hseat : (g.ordered_cards.length - 1) % g.players_count = i
      · by_cases hend : g.end_dt = none
        · have hcomp : g.is_completed = false := by
            unfold GameRec.is_completed
            rw [hend]
            rfl
          simp [hseat, hcomp, hend, hne]
        · have hcomp : g.is_completed = true := by
            unfold GameRec.is_completed
            cases he : g.end_dt
            · exact absurd he hend
            · rfl
          simp [hseat, hcomp, hend]
      · simp [hseat]

/-! ## Season arithmetic -/

theorem dtle_trans {a b c : DT} (h1 : DT.le a b) (h2 : DT.le b c) :
    DT.le a c := by
  unfold DT.le at *
  omega

theorem dtlt_of_le_of_lt {a b c : DT} (h1 : DT.le a b) (h2 : DT.lt b c) :
    DT.lt a c := by
  unfold DT.le DT.lt at *
  omega

theorem dtlt_of_lt_of_le {a b c : DT} (h1 : DT.lt a b) (h2 : DT.le b c) :
    DT.lt a c := by
  unfold DT.le DT.lt at *
  omega

theorem dtlt_irrefl (a : DT) : ¬DT.lt a a := by
  unfold DT.lt
  omega

/-- Python floor division and modulo agree with Euclidean division for
the positive divisor 2. -/
theorem start_datetime_fields (n : Int) :
    Season.start_datetime n =
      { year := 2013 + (n - 1) / 2,
        month := if (n - 1) % 2 = 1 then 7 else 1, day := 1, micro := 0 } := by
  unfold Season.start_datetime
  dsimp only
  rw [Int.fdiv_eq_ediv _ (by omega), Int.fmod_eq_emod _ (by omega)]

theorem end_datetime_fields (k : Int) :
    Season.end_datetime k =
      if k % 2 = 1 then
        { year := 2013 + k / 2, month := 6, day := 30, micro := 86399999999 }
      else
        { year := 2013 + k / 2 - 1, month := 12, day := 31,
          micro := 86399999999 } := by
  unfold Season.end_datetime
  rw [start_datetime_fields]
  have h1 : (k + 1 : Int) - 1 = k := by omega
  rw [h1]
  by_cases h : k % 2 = 1
  · rw [if_pos h, if_pos h]
    unfold DT.pred
    norm_num [daysInMonth]
  · rw [if_neg h, if_neg h]
    unfold DT.pred
    norm_num

theorem start_mono {a b : Int} (h : a ≤ b) :
    DT.le (Season.start_datetime a) (Season.start_datetime b) := by
  rw [start_datetime_fields, start_datetime_fields]
  by_cases ha : (a - 1) % 2 = 1 <;> by_cases hb : (b - 1) % 2 = 1 <;>
    simp only [ha, hb, if_pos, if_neg, if_true, if_false] <;>
    unfold DT.le <;> dsimp only <;> omega

theorem end_lt_next_start (k : Int) :
    DT.lt (Season.end_datetime k) (Season.start_datetime (k + 1)) := by
  rw [end_datetime_fields, start_datetime_fields]
  have h1 : (k + 1 : Int) - 1 = k := by omega
  rw [h1]
  by_cases h : k % 2 = 1 <;>
    simp only [h, if_pos, if_neg, if_true, if_false] <;>
    unfold DT.lt <;> dsimp only <;> omega

theorem succ_end_eq_next_start (k : Int) :
    DT.succ (Season.end_datetime k) = Season.start_datetime (k + 1) := by
  rw [end_datetime_fields, start_datetime_fields]
  have h1 : (k + 1 : Int) - 1 = k := by omega
  rw [h1]
  by_cases h : k % 2 = 1
  · rw [if_pos h, if_pos h]
    unfold DT.succ
    norm_num [daysInMonth]
  · rw [if_neg h, if_neg h]
    unfold DT.succ
    norm_num [daysInMonth]

/-- C4: every valid datetime on or after the 2013-01-01 epoch lies in
exactly one numbered season — the one `season_from_date` names; each
season's end is one microsecond before the next season's start (with the
one-microsecond step invertible); and `current_season`, which is
`season_from_date` of today, contains today. -/
theorem C4_season_partition (d : DT) (hv : ValidDT d)
    (he : DT.le firstSeasonStart d) :
    1 ≤ Season.season_from_date d.year d.month ∧
    DT.le (Season.start_datetime (Season.season_from_date d.year d.month)) d ∧
    DT.le d (Season.end_datetime (Season.season_from_date d.year d.month)) ∧
    (∀ m : Int, DT.le (Season.start_datetime m) d →
      DT.le d (Season.end_datetime m) →
      m = Season.season_from_date d.year d.month) ∧
    (∀ k : Int, Season.end_datetime k =
      DT.pred (Season.start_datetime (k + 1))) ∧
    (∀ k : Int, DT.succ (Season.end_datetime k) =
      Season.start_datetime (k + 1)) ∧
    DT.le (Season.start_datetime (Season.current_season d)) d ∧
    DT.le d (Season.end_datetime (Season.current_season d)) := by
  obtain ⟨hm1, hm12, hd1, hdm, hmi0, hmimax⟩ := hv
  have hy : 2013 ≤ d.year := by
    unfold DT.le firstSeasonStart at he
    dsimp only at he
    omega
  have hd6 : d.month = 6 → d.day ≤ 30 := by
    intro h
    rw [h] at hdm
    have h30 : daysInMonth d.year 6 = 30 := by norm_num [daysInMonth]
    omega
  have hd12 : d.month = 12 → d.day ≤ 31 := by
    intro h
    rw [h] at hdm
    have h31 : daysInMonth d.year 12 = 31 := by norm_num [daysInMonth]
    omega
  set n := Season.season_from_date d.year d.month with hn
  have hnval : n =
      2 * (d.year - 2013) + 1 + (if 7 ≤ d.month then 1 else 0) := rfl
  have hn1 : 1 ≤ n := by
    rw [hnval]
    by_cases h : 7 ≤ d.month
    · rw [if_pos h]
      omega
    · rw [if_neg h]
      omega
  have hstart : DT.le (Season.start_datetime n) d := by
    rw [start_datetime_fields]
    by_cases h : 7 ≤ d.month
    · have hq : (n - 1) / 2 = d.year - 2013 := by
        rw [hnval, if_pos h]
        omega
      have hr : (n - 1) % 2 = 1 := by
        rw [hnval, if_pos h]
        omega
      rw [hq, hr, if_pos rfl]
      unfold DT.le
      dsimp only
      omega
    · have hq : (n - 1) / 2 = d.year - 2013 := by
        rw [hnval, if_neg h]
        omega
      have hr : ¬((n - 1) % 2 = 1) := by
        rw [hnval, if_neg h]
        omega
      rw [hq, if_neg hr]
      unfold DT.le
      dsimp only
      omega
  have hend : DT.le d (Season.end_datetime n) := by
    rw [end_datetime_fields]
    by_cases h : 7 ≤ d.month
    · have hr : ¬(n % 2 = 1) := by
        rw [hnval, if_pos h]
        omega
      have hq : n / 2 = d.year - 2013 + 1 := by
        rw [hnval, if_pos h]
        omega
      rw [if_neg hr, hq]
      unfold DT.le
      dsimp only
      omega
    · have hr : n % 2 = 1 := by
        rw [hnval, if_neg h]
        omega
      have hq : n / 2 = d.year - 2013 := by
        rw [hnval, if_neg h]
        omega
      rw [if_pos hr, hq]
      unfold DT.le
      dsimp only
      omega
  refine ⟨hn1, hstart, hend, ?_, fun k => rfl, succ_end_eq_next_start,
    hstart, hend⟩
  intro m hms hme
  by_contra hne
  rcases lt_or_gt_of_ne hne with hlt | hgt
  · have h1 : DT.lt d (Season.start_datetime (m + 1)) :=
      dtlt_of_le_of_lt hme (end_lt_next_start m)
    have h2 : DT.le (Season.start_datetime (m + 1)) (Season.start_datetime n) :=
      start_mono (by omega)
    have h3 : DT.lt d d :=
      dtlt_of_lt_of_le h1 (dtle_trans h2 hstart)
    exact dtlt_irrefl d h3
  · have h1 : DT.lt d (Season.start_datetime (n + 1)) :=
      dtlt_of_le_of_lt hend (end_lt_next_start n)
    have h2 : DT.le (Season.start_datetime (n + 1)) (Season.start_datetime m) :=
      start_mono (by omega)
    have h3 : DT.lt d d :=
      dtlt_of_lt_of_le h1 (dtle_trans h2 hms)
    exact dtlt_irrefl d h3

def today2026 : DT := { year := 2026, month := 10, day := 12, micro := 0 }

/-- C4 witness: the partition facts at a concrete date (2026-10-12). -/
theorem C4_witness :
    1 ≤ Season.season_from_date today2026.year today2026.month ∧
    DT.le (Season.start_datetime
      (Season.season_from_date today2026.year today2026.month)) today2026 ∧
    DT.le today2026 (Season.end_datetime
      (Season.season_from_date today2026.year today2026.month)) ∧
    (∀ m : Int, DT.le (Season.start_datetime m) today2026 →
      DT.le today2026 (Season.end_datetime m) →
      m = Season.season_from_date today2026.year today2026.month) ∧
    (∀ k : Int, Season.end_datetime k =
      DT.pred (Season.start_datetime (k + 1))) ∧
    (∀ k : Int, DT.succ (Season.end_datetime k) =
      Season.start_datetime (k + 1)) ∧
    DT.le (Season.start_datetime (Season.current_season today2026)) today2026 ∧
    DT.le today2026 (Season.end_datetime (Season.current_season today2026)) :=
  C4_season_partition today2026
    (by unfold ValidDT; norm_num [today2026, daysInMonth, isLeapYear])
    (by unfold DT.le; norm_num [today2026, firstSeasonStart])

/-- A live three-card two-player game with timing: seat 0 drew the most
recent card. -/
def gC7 : GameRec :=
  { id := 30, official := true, dnf := false, start_dt := some 0,
    end_dt := none, sips_per_beer := 14,
    gameplayers := [⟨0, 0, false⟩, ⟨1, 1, false⟩],
    cards := [⟨5, 'S', some 10, none⟩, ⟨7, 'S', some 30, none⟩,
      ⟨9, 'S', some 60, none⟩] }

/-- C7 witness: the live-game `time_per_sip` formula at a concrete game
and seat. -/
theorem C7_witness :
    ((gC7.get_player_stats).getD 0 pgsDefault).time_per_sip =
      (if gC7.start_dt.isNone then none
       else if gC7.ordered_cards ≠ [] ∧
           (gC7.ordered_cards.length - 1) % gC7.players_count = 0 ∧
           gC7.end_dt = none then
         div_or_none (specSeatTime gC7 0)
           (some ((specSeatSips gC7 0 : ℚ) -
             ((gC7.ordered_cards.getLast?.map (fun c => (c.value : ℚ))).getD 0)))
       else div_or_none (specSeatTime gC7 0) (some ((specSeatSips gC7 0 : ℚ)))) :=
  C7_time_per_sip gC7 0 (by decide)
